import Mathlib

/-!
Shallow embedding of the ElfParser repository (Rust) for verification.

The byte source (a `std::fs::File`) is modelled as a `List Nat` of bytes.
Sequential readers consume a prefix of the list; absolute seeks are modelled
by `List.drop`, which matches `Seek::seek(SeekFrom::Start _)` on a file
(seeking past the end succeeds; a subsequent exact read of a positive number
of bytes fails).

Rust distinguishes two failure modes that we keep apart:
* returning `None` from an `Option`-returning function (the `?` operator or
  an explicit `None`) — modelled by `PResult.fail`;
* aborting the process (`panic!`, `assert!`, `.expect`, `.unwrap()` on `None`,
  `unimplemented!()`) — modelled by `PResult.panic`.

Rust `String`s produced by `String::from_utf8` are kept as their underlying
byte lists.  The patterns searched for (`".strtab"`, `"__stack_chk_fail"`,
`".got.plt"`) are pure ASCII, and on a valid UTF-8 haystack `str::find` /
`str::contains` with an ASCII needle coincide with byte-level first-occurrence
search (an ASCII byte can never be a UTF-8 continuation byte, so every
byte-level match is char-aligned), so the searches are modelled directly on
the byte lists; `String::from_utf8`'s validity check is modelled by
`utf8Valid`.
-/

/-- Outcome of a Rust computation: a value, a `None` return, or a process
abort (panic). -/
inductive PResult (α : Type) where
  | ok : α → PResult α
  | fail : PResult α
  | panic : PResult α
  deriving DecidableEq, Repr

/-- Little-endian value of a byte list: `from_le_bytes`. -/
def leVal : List Nat → Nat
  | [] => 0
  | b :: r => b + 256 * leVal r

/-- `Read::read_exact` into a buffer of `n` bytes: succeeds returning the
bytes and the rest of the stream exactly when `n` bytes remain. -/
def readExactN (n : Nat) (s : List Nat) : Option (List Nat × List Nat) :=
  if n ≤ s.length then some (s.take n, s.drop n) else none

/-- The `read_uX!` macro of `src/elf/helpers.rs`: read exactly `n` bytes and
reinterpret them as an unsigned little-endian integer. -/
def read_uN (n : Nat) (s : List Nat) : Option (Nat × List Nat) :=
  match readExactN n s with
  | some (b, r) => some (leVal b, r)
  | none => none

/-- `read_u8` from `src/elf/helpers.rs`. -/
def read_u8 : List Nat → Option (Nat × List Nat) := read_uN 1

/-- `read_u16` from `src/elf/helpers.rs`. -/
def read_u16 : List Nat → Option (Nat × List Nat) := read_uN 2

/-- `read_u32` from `src/elf/helpers.rs`. -/
def read_u32 : List Nat → Option (Nat × List Nat) := read_uN 4

/-- `read_u64` from `src/elf/helpers.rs`. -/
def read_u64 : List Nat → Option (Nat × List Nat) := read_uN 8

/-- Seek to absolute offset `off` and `read_exact` a buffer of `size` bytes
(`vec![0; size]`).  Seeking past the end of the file succeeds, and reading a
0-byte buffer always succeeds, so the read fails exactly when fewer than
`size` bytes lie at or after `off`. -/
def readRegion (file : List Nat) (off size : Nat) : Option (List Nat) :=
  if size ≤ file.length - off then some ((file.drop off).take size) else none

/-- Byte index of the first occurrence of `p` in a byte list
(`str::find` for an ASCII pattern). -/
def findSub (p : List Nat) : List Nat → Option Nat
  | [] => if p.isPrefixOf ([] : List Nat) then some 0 else none
  | a :: t =>
    if p.isPrefixOf (a :: t) then some 0
    else (findSub p t).map (· + 1)

/-- `str::contains` for an ASCII pattern: some occurrence exists. -/
def hasSub (s p : List Nat) : Bool := (findSub p s).isSome

/-- A UTF-8 continuation byte. -/
def isCont (b : Nat) : Bool := 0x80 ≤ b && b ≤ 0xBF

/-- Validity of a byte list as UTF-8, as checked by `String::from_utf8`
(strict: rejects overlong encodings, surrogates, and values above
`U+10FFFF`). -/
def utf8Valid : List Nat → Bool
  | [] => true
  | b :: rest =>
    if b ≤ 0x7F then utf8Valid rest
    else if 0xC2 ≤ b && b ≤ 0xDF then
      match rest with
      | c1 :: r => isCont c1 && utf8Valid r
      | [] => false
    else if b == 0xE0 then
      match rest with
      | c1 :: c2 :: r => (0xA0 ≤ c1 && c1 ≤ 0xBF) && isCont c2 && utf8Valid r
      | _ => false
    else if 0xE1 ≤ b && b ≤ 0xEC then
      match rest with
      | c1 :: c2 :: r => isCont c1 && isCont c2 && utf8Valid r
      | _ => false
    else if b == 0xED then
      match rest with
      | c1 :: c2 :: r => (0x80 ≤ c1 && c1 ≤ 0x9F) && isCont c2 && utf8Valid r
      | _ => false
    else if 0xEE ≤ b && b ≤ 0xEF then
      match rest with
      | c1 :: c2 :: r => isCont c1 && isCont c2 && utf8Valid r
      | _ => false
    else if b == 0xF0 then
      match rest with
      | c1 :: c2 :: c3 :: r =>
        (0x90 ≤ c1 && c1 ≤ 0xBF) && isCont c2 && isCont c3 && utf8Valid r
      | _ => false
    else if 0xF1 ≤ b && b ≤ 0xF3 then
      match rest with
      | c1 :: c2 :: c3 :: r => isCont c1 && isCont c2 && isCont c3 && utf8Valid r
      | _ => false
    else if b == 0xF4 then
      match rest with
      | c1 :: c2 :: c3 :: r =>
        (0x80 ≤ c1 && c1 ≤ 0x8F) && isCont c2 && isCont c3 && utf8Valid r
      | _ => false
    else false

/-- The 4 ELF magic bytes `0x7f 'E' 'L' 'F'`. -/
def elfMagic : List Nat := [0x7f, 0x45, 0x4c, 0x46]

/-- The bytes of the ASCII string `".strtab"`. -/
def dotStrtabBytes : List Nat := [0x2e, 0x73, 0x74, 0x72, 0x74, 0x61, 0x62]

/-- The bytes of the ASCII string `"__stack_chk_fail"`. -/
def stackChkFailBytes : List Nat :=
  [0x5f, 0x5f, 0x73, 0x74, 0x61, 0x63, 0x6b, 0x5f,
   0x63, 0x68, 0x6b, 0x5f, 0x66, 0x61, 0x69, 0x6c]

/-- The bytes of the ASCII string `".got.plt"`. -/
def gotPltBytes : List Nat := [0x2e, 0x67, 0x6f, 0x74, 0x2e, 0x70, 0x6c, 0x74]

/-! ### Enumerations from `src/elf/types.rs` -/

/-- OS/ABI identification, enum `EiOsabi`. -/
inductive EiOsabi where
  | ElfOsabiNONE | ElfOsabiHPUX | ElfOsabiNETBSD | ElfOsabiLINUX
  | ElfOsabiAIX | ElfOsabiIRIX | ElfOsabiFREEBSD | ElfOsabiTRU64
  | ElfOsabiMODESTO | ElfOsabiOPENBSD | ElfOsabiOPENVMS | ElfOsabiNSK
  | ElfOsabiARMAEABI | ElfOsabiARM | ElfOsabiSTANDALONE
  deriving DecidableEq, BEq, Repr

/-- `EiOsabi::from_u8` (derived from the `Primitive` discriminants). -/
def eiOsabiFromU8 : Nat → Option EiOsabi
  | 0 => some .ElfOsabiNONE
  | 1 => some .ElfOsabiHPUX
  | 2 => some .ElfOsabiNETBSD
  | 3 => some .ElfOsabiLINUX
  | 7 => some .ElfOsabiAIX
  | 8 => some .ElfOsabiIRIX
  | 9 => some .ElfOsabiFREEBSD
  | 10 => some .ElfOsabiTRU64
  | 11 => some .ElfOsabiMODESTO
  | 12 => some .ElfOsabiOPENBSD
  | 13 => some .ElfOsabiOPENVMS
  | 14 => some .ElfOsabiNSK
  | 64 => some .ElfOsabiARMAEABI
  | 97 => some .ElfOsabiARM
  | 255 => some .ElfOsabiSTANDALONE
  | _ => none

/-- Discriminant of an `EiOsabi` value. -/
def eiOsabiToU8 : EiOsabi → Nat
  | .ElfOsabiNONE => 0
  | .ElfOsabiHPUX => 1
  | .ElfOsabiNETBSD => 2
  | .ElfOsabiLINUX => 3
  | .ElfOsabiAIX => 7
  | .ElfOsabiIRIX => 8
  | .ElfOsabiFREEBSD => 9
  | .ElfOsabiTRU64 => 10
  | .ElfOsabiMODESTO => 11
  | .ElfOsabiOPENBSD => 12
  | .ElfOsabiOPENVMS => 13
  | .ElfOsabiNSK => 14
  | .ElfOsabiARMAEABI => 64
  | .ElfOsabiARM => 97
  | .ElfOsabiSTANDALONE => 255

/-- ELF file version, enum `EiVersion`. -/
inductive EiVersion where
  | EvNone | EvCurrent
  deriving DecidableEq, BEq, Repr

/-- `EiVersion::from_u8`. -/
def eiVersionFromU8 : Nat → Option EiVersion
  | 0 => some .EvNone
  | 1 => some .EvCurrent
  | _ => none

/-- Discriminant of an `EiVersion` value. -/
def eiVersionToU8 : EiVersion → Nat
  | .EvNone => 0
  | .EvCurrent => 1

/-- Endianness, enum `EiData`. -/
inductive EiData where
  | ElfDataNone | ElfData2Lsb | ElfData2Msb
  deriving DecidableEq, BEq, Repr

/-- `EiData::from_u8`. -/
def eiDataFromU8 : Nat → Option EiData
  | 0 => some .ElfDataNone
  | 1 => some .ElfData2Lsb
  | 2 => some .ElfData2Msb
  | _ => none

/-- Discriminant of an `EiData` value. -/
def eiDataToU8 : EiData → Nat
  | .ElfDataNone => 0
  | .ElfData2Lsb => 1
  | .ElfData2Msb => 2

/-- ELF class (32/64-bit), enum `EiClass`. -/
inductive EiClass where
  | ElfClassNone | ElfClass32 | ElfClass64
  deriving DecidableEq, BEq, Repr

/-- `EiClass::from_u8`. -/
def eiClassFromU8 : Nat → Option EiClass
  | 0 => some .ElfClassNone
  | 1 => some .ElfClass32
  | 2 => some .ElfClass64
  | _ => none

/-- Discriminant of an `EiClass` value. -/
def eiClassToU8 : EiClass → Nat
  | .ElfClassNone => 0
  | .ElfClass32 => 1
  | .ElfClass64 => 2

/-- Object file type, enum `EType`. -/
inductive EType where
  | EtNone | EtRel | EtExec | EtDyn | EtCore
  deriving DecidableEq, BEq, Repr

/-- `EType::from_u16`. -/
def eTypeFromU16 : Nat → Option EType
  | 0 => some .EtNone
  | 1 => some .EtRel
  | 2 => some .EtExec
  | 3 => some .EtDyn
  | 4 => some .EtCore
  | _ => none

/-- Discriminant of an `EType` value. -/
def eTypeToU16 : EType → Nat
  | .EtNone => 0
  | .EtRel => 1
  | .EtExec => 2
  | .EtDyn => 3
  | .EtCore => 4

/-- Target machine, enum `EMachine`. -/
inductive EMachine where
  | EmNone | EmM32 | EmSparc | Em386 | Em68K | Em88K | Em860 | EmMips
  | EmPAriscV | EmSparc32Plus | EmPPC | EmPPC64 | EmS390 | EmARM | EmSH
  | EmSPARCv9 | EmIA64 | Emx86_64 | EmVax | EmRISCV
  deriving DecidableEq, BEq, Repr

/-- `EMachine::from_u16`. -/
def eMachineFromU16 : Nat → Option EMachine
  | 0 => some .EmNone
  | 1 => some .EmM32
  | 2 => some .EmSparc
  | 3 => some .Em386
  | 4 => some .Em68K
  | 5 => some .Em88K
  | 7 => some .Em860
  | 8 => some .EmMips
  | 15 => some .EmPAriscV
  | 18 => some .EmSparc32Plus
  | 20 => some .EmPPC
  | 21 => some .EmPPC64
  | 22 => some .EmS390
  | 40 => some .EmARM
  | 42 => some .EmSH
  | 43 => some .EmSPARCv9
  | 50 => some .EmIA64
  | 62 => some .Emx86_64
  | 75 => some .EmVax
  | 243 => some .EmRISCV
  | _ => none

/-- Discriminant of an `EMachine` value. -/
def eMachineToU16 : EMachine → Nat
  | .EmNone => 0
  | .EmM32 => 1
  | .EmSparc => 2
  | .Em386 => 3
  | .Em68K => 4
  | .Em88K => 5
  | .Em860 => 7
  | .EmMips => 8
  | .EmPAriscV => 15
  | .EmSparc32Plus => 18
  | .EmPPC => 20
  | .EmPPC64 => 21
  | .EmS390 => 22
  | .EmARM => 40
  | .EmSH => 42
  | .EmSPARCv9 => 43
  | .EmIA64 => 50
  | .Emx86_64 => 62
  | .EmVax => 75
  | .EmRISCV => 243

/-- Header version, enum `EVersion`. -/
inductive EVersion where
  | EvNone | EvCurrent | EvNum
  deriving DecidableEq, BEq, Repr

/-- `EVersion::from_u32`. -/
def eVersionFromU32 : Nat → Option EVersion
  | 0 => some .EvNone
  | 1 => some .EvCurrent
  | 2 => some .EvNum
  | _ => none

/-- Discriminant of an `EVersion` value. -/
def eVersionToU32 : EVersion → Nat
  | .EvNone => 0
  | .EvCurrent => 1
  | .EvNum => 2

/-- Segment type, enum `PType`. -/
inductive PType where
  | PtNull | PtLoad | PtDynamic | PtInterp | PtNote | PtShlib | PtPhdr | PtTls
  | PtLoos | PtHios | PtLoproc | PtHiproc
  | PtGnuEhFrame | PtGnuStack | PtGnuRelro
  deriving DecidableEq, BEq, Repr

/-- `PType::from_u32`. -/
def pTypeFromU32 : Nat → Option PType
  | 0 => some .PtNull
  | 1 => some .PtLoad
  | 2 => some .PtDynamic
  | 3 => some .PtInterp
  | 4 => some .PtNote
  | 5 => some .PtShlib
  | 6 => some .PtPhdr
  | 7 => some .PtTls
  | 0x60000000 => some .PtLoos
  | 0x6fffffff => some .PtHios
  | 0x70000000 => some .PtLoproc
  | 0x7fffffff => some .PtHiproc
  | 0x6474e550 => some .PtGnuEhFrame
  | 0x6474e551 => some .PtGnuStack
  | 0x6474e552 => some .PtGnuRelro
  | _ => none

/-- Discriminant of a `PType` value. -/
def pTypeToU32 : PType → Nat
  | .PtNull => 0
  | .PtLoad => 1
  | .PtDynamic => 2
  | .PtInterp => 3
  | .PtNote => 4
  | .PtShlib => 5
  | .PtPhdr => 6
  | .PtTls => 7
  | .PtLoos => 0x60000000
  | .PtHios => 0x6fffffff
  | .PtLoproc => 0x70000000
  | .PtHiproc => 0x7fffffff
  | .PtGnuEhFrame => 0x6474e550
  | .PtGnuStack => 0x6474e551
  | .PtGnuRelro => 0x6474e552

/-- Section type, enum `SHType`. -/
inductive SHType where
  | ShtNULL | ShtPROGBITS | ShtSYMTAB | ShtSTRTAB | ShtRELA | ShtHASH
  | ShtDYNAMIC | ShtNOTE | ShtNOBITS | ShtREL | ShtSHLIB | ShtDYNSYM
  | ShtINITARRAY | ShtFINIARRAY | ShtPREINITARRAY | ShtGROUP | ShtSYMTABSHNDX
  | ShtNUM | ShtLOOS | ShtGNUAttr | ShtGnuHash | ShtGnuLiblist | ShtChecksum
  | ShtLosunw | ShtSunwComdat | ShtSunwSyminfo | ShtGnuVerdef | ShtGnuVerneed
  | ShtGnuVersym | ShtLOPROC | ShtHIPROC | ShtLOUSER | ShtHIUSER
  deriving DecidableEq, BEq, Repr

/-- `SHType::from_u32`. -/
def shTypeFromU32 : Nat → Option SHType
  | 0 => some .ShtNULL
  | 1 => some .ShtPROGBITS
  | 2 => some .ShtSYMTAB
  | 3 => some .ShtSTRTAB
  | 4 => some .ShtRELA
  | 5 => some .ShtHASH
  | 6 => some .ShtDYNAMIC
  | 7 => some .ShtNOTE
  | 8 => some .ShtNOBITS
  | 9 => some .ShtREL
  | 10 => some .ShtSHLIB
  | 11 => some .ShtDYNSYM
  | 14 => some .ShtINITARRAY
  | 15 => some .ShtFINIARRAY
  | 16 => some .ShtPREINITARRAY
  | 17 => some .ShtGROUP
  | 18 => some .ShtSYMTABSHNDX
  | 19 => some .ShtNUM
  | 0x60000000 => some .ShtLOOS
  | 0x6ffffff5 => some .ShtGNUAttr
  | 0x6ffffff6 => some .ShtGnuHash
  | 0x6ffffff7 => some .ShtGnuLiblist
  | 0x6ffffff8 => some .ShtChecksum
  | 0x6ffffffa => some .ShtLosunw
  | 0x6ffffffb => some .ShtSunwComdat
  | 0x6ffffffc => some .ShtSunwSyminfo
  | 0x6ffffffd => some .ShtGnuVerdef
  | 0x6ffffffe => some .ShtGnuVerneed
  | 0x6fffffff => some .ShtGnuVersym
  | 0x70000000 => some .ShtLOPROC
  | 0x7fffffff => some .ShtHIPROC
  | 0x80000000 => some .ShtLOUSER
  | 0xffffffff => some .ShtHIUSER
  | _ => none

/-- Discriminant of a `SHType` value. -/
def shTypeToU32 : SHType → Nat
  | .ShtNULL => 0
  | .ShtPROGBITS => 1
  | .ShtSYMTAB => 2
  | .ShtSTRTAB => 3
  | .ShtRELA => 4
  | .ShtHASH => 5
  | .ShtDYNAMIC => 6
  | .ShtNOTE => 7
  | .ShtNOBITS => 8
  | .ShtREL => 9
  | .ShtSHLIB => 10
  | .ShtDYNSYM => 11
  | .ShtINITARRAY => 14
  | .ShtFINIARRAY => 15
  | .ShtPREINITARRAY => 16
  | .ShtGROUP => 17
  | .ShtSYMTABSHNDX => 18
  | .ShtNUM => 19
  | .ShtLOOS => 0x60000000
  | .ShtGNUAttr => 0x6ffffff5
  | .ShtGnuHash => 0x6ffffff6
  | .ShtGnuLiblist => 0x6ffffff7
  | .ShtChecksum => 0x6ffffff8
  | .ShtLosunw => 0x6ffffffa
  | .ShtSunwComdat => 0x6ffffffb
  | .ShtSunwSyminfo => 0x6ffffffc
  | .ShtGnuVerdef => 0x6ffffffd
  | .ShtGnuVerneed => 0x6ffffffe
  | .ShtGnuVersym => 0x6fffffff
  | .ShtLOPROC => 0x70000000
  | .ShtHIPROC => 0x7fffffff
  | .ShtLOUSER => 0x80000000
  | .ShtHIUSER => 0xffffffff

/-! ### Structures from `src/elf/types.rs` -/

/-- The decoded `e_ident` identification block, struct `EIdentStruct`.
The Rust field `class` is a Lean keyword and is rendered `cls`. -/
structure EIdentStruct where
  magic : List Nat
  cls : EiClass
  endianness : EiData
  version : EiVersion
  osabi : EiOsabi
  abi_version : Nat
  deriving DecidableEq, Repr

/-- 64-bit ELF header, struct `Elf64Ehdr`.  Machine integers are carried as
`Nat`; decoding only ever produces in-range values. -/
structure Elf64Ehdr where
  e_ident : EIdentStruct
  e_type : EType
  e_machine : EMachine
  e_version : EVersion
  e_entry : Nat
  e_phoff : Nat
  e_shoff : Nat
  e_flags : Nat
  e_ehsize : Nat
  e_phentsize : Nat
  e_phnum : Nat
  e_shentsize : Nat
  e_shnum : Nat
  e_shstrndx : Nat
  deriving DecidableEq, Repr

/-- 32-bit ELF header, struct `Elf32Ehdr` (`e_entry`/`e_phoff`/`e_shoff`
are `u32` there). -/
structure Elf32Ehdr where
  e_ident : EIdentStruct
  e_type : EType
  e_machine : EMachine
  e_version : EVersion
  e_entry : Nat
  e_phoff : Nat
  e_shoff : Nat
  e_flags : Nat
  e_ehsize : Nat
  e_phentsize : Nat
  e_phnum : Nat
  e_shentsize : Nat
  e_shnum : Nat
  e_shstrndx : Nat
  deriving DecidableEq, Repr

/-- 64-bit program header entry, struct `Elf64Phdr` (declaration order:
`p_type`, `p_flags`, then offsets/sizes). -/
structure Elf64Phdr where
  p_type : PType
  p_flags : Nat
  p_offset : Nat
  p_vaddr : Nat
  p_paddr : Nat
  p_filesz : Nat
  p_memsz : Nat
  p_align : Nat
  deriving DecidableEq, Repr

/-- 32-bit program header entry, struct `Elf32Phdr` (declaration order:
`p_type`, offsets/sizes, then `p_flags`, `p_align`). -/
structure Elf32Phdr where
  p_type : PType
  p_offset : Nat
  p_vaddr : Nat
  p_paddr : Nat
  p_filesz : Nat
  p_memsz : Nat
  p_flags : Nat
  p_align : Nat
  deriving DecidableEq, Repr

/-- 64-bit section header entry, struct `Elf64Shdr`. -/
structure Elf64Shdr where
  sh_name : Nat
  sh_type : SHType
  sh_flags : Nat
  sh_addr : Nat
  sh_offset : Nat
  sh_size : Nat
  sh_link : Nat
  sh_info : Nat
  sh_addralign : Nat
  sh_entsize : Nat
  deriving DecidableEq, Repr

/-- 32-bit section header entry, struct `Elf32Shdr`. -/
structure Elf32Shdr where
  sh_name : Nat
  sh_type : SHType
  sh_flags : Nat
  sh_addr : Nat
  sh_offset : Nat
  sh_size : Nat
  sh_link : Nat
  sh_info : Nat
  sh_addralign : Nat
  sh_entsize : Nat
  deriving DecidableEq, Repr

/-- RELRO level, enum `RelRo` from `src/elf.rs`. -/
inductive RelRo where
  | NoRelRo | PartialRelRo | FullRelRo
  deriving DecidableEq, Repr

/-- Struct `SecurityOptions` from `src/elf.rs`. -/
structure SecurityOptions where
  canary : Bool
  nx : Bool
  relro : RelRo
  pie : Bool
  deriving DecidableEq, Repr

/-- `SecurityOptions::default()` (`bool` defaults to `false`, `RelRo` to
`NoRelRo`). -/
def defaultSecurityOptions : SecurityOptions :=
  ⟨false, false, RelRo.NoRelRo, false⟩

/-- Struct `ELF64` produced by the `setup_arch!` macro in `src/elf.rs`. -/
structure ELF64 where
  header : Elf64Ehdr
  pht : List Elf64Phdr
  sht : List Elf64Shdr
  mitigations : SecurityOptions
  deriving DecidableEq, Repr

/-- Struct `ELF32` produced by the `setup_arch!` macro in `src/elf.rs`. -/
structure ELF32 where
  header : Elf32Ehdr
  pht : List Elf32Phdr
  sht : List Elf32Shdr
  mitigations : SecurityOptions
  deriving DecidableEq, Repr

/-! ### Decoders from `src/elf/types.rs` -/

/-- `Elf64Ehdr::from_io`: read a 16-byte identification block
(`.expect` ⇒ panic on truncation), assert the magic, decode the
identification enums (panic on out-of-range), then read the remaining fields
with `read_uX` (`?` ⇒ `None` on truncation), decoding the three header enums
(panic on out-of-range).  Returns the header and the rest of the stream. -/
def Elf64Ehdr.from_io (s : List Nat) : PResult (Elf64Ehdr × List Nat) :=
  match readExactN 16 s with
  | none => .panic
  | some (buf, rest) =>
  if buf.take 4 = elfMagic then
    match eiClassFromU8 (buf.getD 4 0) with
    | none => .panic
    | some cls =>
    match eiDataFromU8 (buf.getD 5 0) with
    | none => .panic
    | some endianness =>
    match eiVersionFromU8 (buf.getD 6 0) with
    | none => .panic
    | some iver =>
    match eiOsabiFromU8 (buf.getD 7 0) with
    | none => .panic
    | some osabi =>
    let abi_version := buf.getD 8 0
    match read_u16 rest with
    | none => .fail
    | some (tv, s1) =>
    match eTypeFromU16 tv with
    | none => .panic
    | some ety =>
    match read_u16 s1 with
    | none => .fail
    | some (mv, s2) =>
    match eMachineFromU16 mv with
    | none => .panic
    | some mach =>
    match read_u32 s2 with
    | none => .fail
    | some (vv, s3) =>
    match eVersionFromU32 vv with
    | none => .panic
    | some ever =>
    match read_u64 s3 with
    | none => .fail
    | some (entry, s4) =>
    match read_u64 s4 with
    | none => .fail
    | some (phoff, s5) =>
    match read_u64 s5 with
    | none => .fail
    | some (shoff, s6) =>
    match read_u32 s6 with
    | none => .fail
    | some (flags, s7) =>
    match read_u16 s7 with
    | none => .fail
    | some (ehsize, s8) =>
    match read_u16 s8 with
    | none => .fail
    | some (phentsize, s9) =>
    match read_u16 s9 with
    | none => .fail
    | some (phnum, s10) =>
    match read_u16 s10 with
    | none => .fail
    | some (shentsize, s11) =>
    match read_u16 s11 with
    | none => .fail
    | some (shnum, s12) =>
    match read_u16 s12 with
    | none => .fail
    | some (shstrndx, s13) =>
      .ok (⟨⟨buf.take 4, cls, endianness, iver, osabi, abi_version⟩,
            ety, mach, ever, entry, phoff, shoff, flags,
            ehsize, phentsize, phnum, shentsize, shnum, shstrndx⟩, s13)
  else .panic

/-- `Elf32Ehdr::from_io`: identical to the 64-bit decoder except that
`e_entry`, `e_phoff`, `e_shoff` are read as `u32`. -/
def Elf32Ehdr.from_io (s : List Nat) : PResult (Elf32Ehdr × List Nat) :=
  match readExactN 16 s with
  | none => .panic
  | some (buf, rest) =>
  if buf.take 4 = elfMagic then
    match eiClassFromU8 (buf.getD 4 0) with
    | none => .panic
    | some cls =>
    match eiDataFromU8 (buf.getD 5 0) with
    | none => .panic
    | some endianness =>
    match eiVersionFromU8 (buf.getD 6 0) with
    | none => .panic
    | some iver =>
    match eiOsabiFromU8 (buf.getD 7 0) with
    | none => .panic
    | some osabi =>
    let abi_version := buf.getD 8 0
    match read_u16 rest with
    | none => .fail
    | some (tv, s1) =>
    match eTypeFromU16 tv with
    | none => .panic
    | some ety =>
    match read_u16 s1 with
    | none => .fail
    | some (mv, s2) =>
    match eMachineFromU16 mv with
    | none => .panic
    | some mach =>
    match read_u32 s2 with
    | none => .fail
    | some (vv, s3) =>
    match eVersionFromU32 vv with
    | none => .panic
    | some ever =>
    match read_u32 s3 with
    | none => .fail
    | some (entry, s4) =>
    match read_u32 s4 with
    | none => .fail
    | some (phoff, s5) =>
    match read_u32 s5 with
    | none => .fail
    | some (shoff, s6) =>
    match read_u32 s6 with
    | none => .fail
    | some (flags, s7) =>
    match read_u16 s7 with
    | none => .fail
    | some (ehsize, s8) =>
    match read_u16 s8 with
    | none => .fail
    | some (phentsize, s9) =>
    match read_u16 s9 with
    | none => .fail
    | some (phnum, s10) =>
    match read_u16 s10 with
    | none => .fail
    | some (shentsize, s11) =>
    match read_u16 s11 with
    | none => .fail
    | some (shnum, s12) =>
    match read_u16 s12 with
    | none => .fail
    | some (shstrndx, s13) =>
      .ok (⟨⟨buf.take 4, cls, endianness, iver, osabi, abi_version⟩,
            ety, mach, ever, entry, phoff, shoff, flags,
            ehsize, phentsize, phnum, shentsize, shnum, shstrndx⟩, s13)
  else .panic

/-- `Elf64Phdr::from_io`: `p_type` (u32, panic on unknown value), `p_flags`
(u32), then `p_offset`/`p_vaddr`/`p_paddr`/`p_filesz`/`p_memsz`/`p_align`
(u64 each) — flags before offsets. -/
def Elf64Phdr.from_io (s : List Nat) : PResult (Elf64Phdr × List Nat) :=
  match read_u32 s with
  | none => .fail
  | some (tv, s1) =>
  match pTypeFromU32 tv with
  | none => .panic
  | some ptype =>
  match read_u32 s1 with
  | none => .fail
  | some (flags, s2) =>
  match read_u64 s2 with
  | none => .fail
  | some (off, s3) =>
  match read_u64 s3 with
  | none => .fail
  | some (vaddr, s4) =>
  match read_u64 s4 with
  | none => .fail
  | some (paddr, s5) =>
  match read_u64 s5 with
  | none => .fail
  | some (filesz, s6) =>
  match read_u64 s6 with
  | none => .fail
  | some (memsz, s7) =>
  match read_u64 s7 with
  | none => .fail
  | some (align, s8) =>
    .ok (⟨ptype, flags, off, vaddr, paddr, filesz, memsz, align⟩, s8)

/-- `Elf32Phdr::from_io`: `p_type` (u32, panic on unknown value), then
`p_offset`/`p_vaddr`/`p_paddr`/`p_filesz`/`p_memsz`, then `p_flags`, then
`p_align` (u32 each) — offsets before flags. -/
def Elf32Phdr.from_io (s : List Nat) : PResult (Elf32Phdr × List Nat) :=
  match read_u32 s with
  | none => .fail
  | some (tv, s1) =>
  match pTypeFromU32 tv with
  | none => .panic
  | some ptype =>
  match read_u32 s1 with
  | none => .fail
  | some (off, s2) =>
  match read_u32 s2 with
  | none => .fail
  | some (vaddr, s3) =>
  match read_u32 s3 with
  | none => .fail
  | some (paddr, s4) =>
  match read_u32 s4 with
  | none => .fail
  | some (filesz, s5) =>
  match read_u32 s5 with
  | none => .fail
  | some (memsz, s6) =>
  match read_u32 s6 with
  | none => .fail
  | some (flags, s7) =>
  match read_u32 s7 with
  | none => .fail
  | some (align, s8) =>
    .ok (⟨ptype, off, vaddr, paddr, filesz, memsz, flags, align⟩, s8)

/-- `Elf64Shdr::from_io`. -/
def Elf64Shdr.from_io (s : List Nat) : PResult (Elf64Shdr × List Nat) :=
  match read_u32 s with
  | none => .fail
  | some (name, s1) =>
  match read_u32 s1 with
  | none => .fail
  | some (tv, s2) =>
  match shTypeFromU32 tv with
  | none => .panic
  | some stype =>
  match read_u64 s2 with
  | none => .fail
  | some (flags, s3) =>
  match read_u64 s3 with
  | none => .fail
  | some (addr, s4) =>
  match read_u64 s4 with
  | none => .fail
  | some (off, s5) =>
  match read_u64 s5 with
  | none => .fail
  | some (size, s6) =>
  match read_u32 s6 with
  | none => .fail
  | some (link, s7) =>
  match read_u32 s7 with
  | none => .fail
  | some (info, s8) =>
  match read_u64 s8 with
  | none => .fail
  | some (addralign, s9) =>
  match read_u64 s9 with
  | none => .fail
  | some (entsize, s10) =>
    .ok (⟨name, stype, flags, addr, off, size, link, info, addralign, entsize⟩, s10)

/-- `Elf32Shdr::from_io` (same field order as the 64-bit variant, all
table fields u32). -/
def Elf32Shdr.from_io (s : List Nat) : PResult (Elf32Shdr × List Nat) :=
  match read_u32 s with
  | none => .fail
  | some (name, s1) =>
  match read_u32 s1 with
  | none => .fail
  | some (tv, s2) =>
  match shTypeFromU32 tv with
  | none => .panic
  | some stype =>
  match read_u32 s2 with
  | none => .fail
  | some (flags, s3) =>
  match read_u32 s3 with
  | none => .fail
  | some (addr, s4) =>
  match read_u32 s4 with
  | none => .fail
  | some (off, s5) =>
  match read_u32 s5 with
  | none => .fail
  | some (size, s6) =>
  match read_u32 s6 with
  | none => .fail
  | some (link, s7) =>
  match read_u32 s7 with
  | none => .fail
  | some (info, s8) =>
  match read_u32 s8 with
  | none => .fail
  | some (addralign, s9) =>
  match read_u32 s9 with
  | none => .fail
  | some (entsize, s10) =>
    .ok (⟨name, stype, flags, addr, off, size, link, info, addralign, entsize⟩, s10)

/-- `Elf64Phdr::has_r`: `(p_flags >> 2) & 1 == 1`. -/
def Elf64Phdr.has_r (p : Elf64Phdr) : Bool := (p.p_flags >>> 2) &&& 1 == 1

/-- `Elf64Phdr::has_w`: `(p_flags >> 1) & 1 == 1`. -/
def Elf64Phdr.has_w (p : Elf64Phdr) : Bool := (p.p_flags >>> 1) &&& 1 == 1

/-- `Elf64Phdr::has_x`: `(p_flags >> 0) & 1 == 1`. -/
def Elf64Phdr.has_x (p : Elf64Phdr) : Bool := (p.p_flags >>> 0) &&& 1 == 1

/-- `Elf32Phdr::has_r`: `(p_flags >> 2) & 1 == 1`. -/
def Elf32Phdr.has_r (p : Elf32Phdr) : Bool := (p.p_flags >>> 2) &&& 1 == 1

/-- `Elf32Phdr::has_w`: `(p_flags >> 1) & 1 == 1`. -/
def Elf32Phdr.has_w (p : Elf32Phdr) : Bool := (p.p_flags >>> 1) &&& 1 == 1

/-- `Elf32Phdr::has_x`: `(p_flags >> 0) & 1 == 1`. -/
def Elf32Phdr.has_x (p : Elf32Phdr) : Bool := (p.p_flags >>> 0) &&& 1 == 1

/-! ### The `load` drivers (the `setup_arch!` macro in `src/elf.rs`) -/

/-- The `for _ in 0..n` decode loop in `$name::load`: decode `n` entries in
sequence with `p`, `.unwrap()`-ing each result (so a `None` from `p` aborts,
modelled by turning `.fail` into `.panic`). -/
def parseEntries {α : Type} (p : List Nat → PResult (α × List Nat)) :
    Nat → List Nat → PResult (List α × List Nat)
  | 0, s => .ok ([], s)
  | n + 1, s =>
    match p s with
    | .ok (a, s1) =>
      match parseEntries p n s1 with
      | .ok (as_, s2) => .ok (a :: as_, s2)
      | .fail => .fail
      | .panic => .panic
    | .fail => .panic
    | .panic => .panic

/-- `ELF64::load`: decode the header from offset 0 (`.expect` turns a `None`
into an abort), seek to `e_phoff` and decode `e_phnum` program headers, seek
to `e_shoff` and decode `e_shnum` section headers; `mitigations` is left at
its default. -/
def ELF64.load (file : List Nat) : PResult ELF64 :=
  match Elf64Ehdr.from_io file with
  | .fail => .panic
  | .panic => .panic
  | .ok (hdr, _) =>
    match parseEntries Elf64Phdr.from_io hdr.e_phnum (file.drop hdr.e_phoff) with
    | .fail => .fail
    | .panic => .panic
    | .ok (pht, _) =>
      match parseEntries Elf64Shdr.from_io hdr.e_shnum (file.drop hdr.e_shoff) with
      | .fail => .fail
      | .panic => .panic
      | .ok (sht, _) => .ok ⟨hdr, pht, sht, defaultSecurityOptions⟩

/-- `ELF32::load`: the 32-bit instantiation of the same macro. -/
def ELF32.load (file : List Nat) : PResult ELF32 :=
  match Elf32Ehdr.from_io file with
  | .fail => .panic
  | .panic => .panic
  | .ok (hdr, _) =>
    match parseEntries Elf32Phdr.from_io hdr.e_phnum (file.drop hdr.e_phoff) with
    | .fail => .fail
    | .panic => .panic
    | .ok (pht, _) =>
      match parseEntries Elf32Shdr.from_io hdr.e_shnum (file.drop hdr.e_shoff) with
      | .fail => .fail
      | .panic => .panic
      | .ok (sht, _) => .ok ⟨hdr, pht, sht, defaultSecurityOptions⟩

/-! ### Security mitigation inference (`SecurityOptions::get_options_*`) -/

/-- `SecurityOptions::get_options_64` from `src/elf.rs`:
* section-name string table: `elf.sht.get(e_shstrndx as usize)?` (a bad index
  returns `None`, i.e. `.fail`), seek/`read_exact` its bytes (`?` ⇒ `.fail`),
  `String::from_utf8(..).expect` (invalid UTF-8 ⇒ panic);
* `shstrtab.find(".strtab").expect` (absent ⇒ panic), `as u32` cast wraps
  modulo 2^32;
* first SHT entry with that `sh_name` (`.expect` ⇒ panic if none), read its
  bytes (`.expect` ⇒ panic on truncation), `from_utf8.expect` again, canary ⇔
  the bytes contain `"__stack_chk_fail"`;
* first PHT entry of type `PT_GNU_STACK` (`.expect` ⇒ panic if none),
  NX = not `has_x`;
* any PHT entry of type `PT_GNU_RELRO`: none ⇒ `NoRelRo`; some ⇒ `FullRelRo`
  if the string table lacks `".got.plt"`, else `PartialRelRo`;
* PIE from `e_type`: `EtDyn` ⇒ true, `EtExec` ⇒ false, else
  `unimplemented!()` ⇒ panic. -/
def get_options_64 (elf : ELF64) (file : List Nat) : PResult SecurityOptions :=
  match elf.sht.get? elf.header.e_shstrndx with
  | none => .fail
  | some shstrtab_section =>
  match readRegion file shstrtab_section.sh_offset shstrtab_section.sh_size with
  | none => .fail
  | some buf =>
  if utf8Valid buf then
    match findSub dotStrtabBytes buf with
    | none => .panic
    | some index_strtab =>
    match elf.sht.find? (fun x => x.sh_name == index_strtab % 4294967296) with
    | none => .panic
    | some symtab =>
    match readRegion file symtab.sh_offset symtab.sh_size with
    | none => .panic
    | some buf2 =>
    if utf8Valid buf2 then
      let canary := hasSub buf2 stackChkFailBytes
      match elf.pht.find? (fun x => x.p_type == PType.PtGnuStack) with
      | none => .panic
      | some gnu_stack =>
      let nx := !gnu_stack.has_x
      let relro :=
        match elf.pht.find? (fun x => x.p_type == PType.PtGnuRelro) with
        | some _ =>
          if !(hasSub buf gotPltBytes) then RelRo.FullRelRo else RelRo.PartialRelRo
        | none => RelRo.NoRelRo
      match elf.header.e_type with
      | EType.EtDyn => .ok ⟨canary, nx, relro, true⟩
      | EType.EtExec => .ok ⟨canary, nx, relro, false⟩
      | _ => .panic
    else .panic
  else .panic

/-- `SecurityOptions::get_options_32` from `src/elf.rs`: textually the same
logic as `get_options_64` over the 32-bit structures (offsets are cast
`as u64` before seeking, which is the identity on the decoded values). -/
def get_options_32 (elf : ELF32) (file : List Nat) : PResult SecurityOptions :=
  match elf.sht.get? elf.header.e_shstrndx with
  | none => .fail
  | some shstrtab_section =>
  match readRegion file shstrtab_section.sh_offset shstrtab_section.sh_size with
  | none => .fail
  | some buf =>
  if utf8Valid buf then
    match findSub dotStrtabBytes buf with
    | none => .panic
    | some index_strtab =>
    match elf.sht.find? (fun x => x.sh_name == index_strtab % 4294967296) with
    | none => .panic
    | some symtab =>
    match readRegion file symtab.sh_offset symtab.sh_size with
    | none => .panic
    | some buf2 =>
    if utf8Valid buf2 then
      let canary := hasSub buf2 stackChkFailBytes
      match elf.pht.find? (fun x => x.p_type == PType.PtGnuStack) with
      | none => .panic
      | some gnu_stack =>
      let nx := !gnu_stack.has_x
      let relro :=
        match elf.pht.find? (fun x => x.p_type == PType.PtGnuRelro) with
        | some _ =>
          if !(hasSub buf gotPltBytes) then RelRo.FullRelRo else RelRo.PartialRelRo
        | none => RelRo.NoRelRo
      match elf.header.e_type with
      | EType.EtDyn => .ok ⟨canary, nx, relro, true⟩
      | EType.EtExec => .ok ⟨canary, nx, relro, false⟩
      | _ => .panic
    else .panic
  else .panic

/-! ### The class-dispatching entry point (`main` in `src/main.rs`) -/

/-- Which decoder `main` ran and what it produced. -/
inductive DispatchResult where
  | decoded64 : ELF64 → DispatchResult
  | decoded32 : ELF32 → DispatchResult
  | failed : DispatchResult
  deriving DecidableEq, Repr

/-- The decode stage of `main` in `src/main.rs`: read the first 5 bytes of
the file into a zero-initialized buffer (the `read_exact` result is ignored,
so byte 4 stays 0 for a short file, modelled with `List.getD`); if byte 4
equals 2 run `ELF64::load`, otherwise run `ELF32::load`, `.unwrap()`-ing the
result (a decode failure aborts, `DispatchResult.failed`).  `main` then runs
the matching `get_options_*` on the loaded value; that later stage is
modelled separately by `get_options_64`/`get_options_32`. -/
def mainDispatch (file : List Nat) : DispatchResult :=
  if file.getD 4 0 = 2 then
    match ELF64.load file with
    | .ok e => .decoded64 e
    | .fail => .failed
    | .panic => .failed
  else
    match ELF32.load file with
    | .ok e => .decoded32 e
    | .fail => .failed
    | .panic => .failed

/-! ### Byte-level serialization of a header+PHT+SHT model

The repository never writes ELF bytes; these serializers realize the byte
sequence that the spec's round-trip property describes: each field written
little-endian, in the decoders' file order, the program header table at
`e_phoff` and the section header table at `e_shoff`, with zero padding in
between. -/

/-- `n` little-endian bytes of `x`. -/
def encodeLE : Nat → Nat → List Nat
  | 0, _ => []
  | n + 1, x => x % 256 :: encodeLE n (x / 256)

/-- The 16 identification bytes of a model: magic, class, data, version,
OS/ABI, ABI version, then 7 padding bytes. -/
def encodeIdent (i : EIdentStruct) : List Nat :=
  i.magic ++ [eiClassToU8 i.cls, eiDataToU8 i.endianness, eiVersionToU8 i.version,
              eiOsabiToU8 i.osabi, i.abi_version, 0, 0, 0, 0, 0, 0, 0]

/-- The 64 bytes of a 64-bit ELF header, fields in decode order. -/
def encodeEhdr64 (h : Elf64Ehdr) : List Nat :=
  encodeIdent h.e_ident ++
  encodeLE 2 (eTypeToU16 h.e_type) ++
  encodeLE 2 (eMachineToU16 h.e_machine) ++
  encodeLE 4 (eVersionToU32 h.e_version) ++
  encodeLE 8 h.e_entry ++
  encodeLE 8 h.e_phoff ++
  encodeLE 8 h.e_shoff ++
  encodeLE 4 h.e_flags ++
  encodeLE 2 h.e_ehsize ++
  encodeLE 2 h.e_phentsize ++
  encodeLE 2 h.e_phnum ++
  encodeLE 2 h.e_shentsize ++
  encodeLE 2 h.e_shnum ++
  encodeLE 2 h.e_shstrndx

/-- The 52 bytes of a 32-bit ELF header, fields in decode order. -/
def encodeEhdr32 (h : Elf32Ehdr) : List Nat :=
  encodeIdent h.e_ident ++
  encodeLE 2 (eTypeToU16 h.e_type) ++
  encodeLE 2 (eMachineToU16 h.e_machine) ++
  encodeLE 4 (eVersionToU32 h.e_version) ++
  encodeLE 4 h.e_entry ++
  encodeLE 4 h.e_phoff ++
  encodeLE 4 h.e_shoff ++
  encodeLE 4 h.e_flags ++
  encodeLE 2 h.e_ehsize ++
  encodeLE 2 h.e_phentsize ++
  encodeLE 2 h.e_phnum ++
  encodeLE 2 h.e_shentsize ++
  encodeLE 2 h.e_shnum ++
  encodeLE 2 h.e_shstrndx

/-- The 56 bytes of a 64-bit program header entry (flags before offsets). -/
def encodePhdr64 (p : Elf64Phdr) : List Nat :=
  encodeLE 4 (pTypeToU32 p.p_type) ++
  encodeLE 4 p.p_flags ++
  encodeLE 8 p.p_offset ++
  encodeLE 8 p.p_vaddr ++
  encodeLE 8 p.p_paddr ++
  encodeLE 8 p.p_filesz ++
  encodeLE 8 p.p_memsz ++
  encodeLE 8 p.p_align

/-- The 32 bytes of a 32-bit program header entry (offsets before flags). -/
def encodePhdr32 (p : Elf32Phdr) : List Nat :=
  encodeLE 4 (pTypeToU32 p.p_type) ++
  encodeLE 4 p.p_offset ++
  encodeLE 4 p.p_vaddr ++
  encodeLE 4 p.p_paddr ++
  encodeLE 4 p.p_filesz ++
  encodeLE 4 p.p_memsz ++
  encodeLE 4 p.p_flags ++
  encodeLE 4 p.p_align

/-- The 64 bytes of a 64-bit section header entry. -/
def encodeShdr64 (s : Elf64Shdr) : List Nat :=
  encodeLE 4 s.sh_name ++
  encodeLE 4 (shTypeToU32 s.sh_type) ++
  encodeLE 8 s.sh_flags ++
  encodeLE 8 s.sh_addr ++
  encodeLE 8 s.sh_offset ++
  encodeLE 8 s.sh_size ++
  encodeLE 4 s.sh_link ++
  encodeLE 4 s.sh_info ++
  encodeLE 8 s.sh_addralign ++
  encodeLE 8 s.sh_entsize

/-- The 40 bytes of a 32-bit section header entry. -/
def encodeShdr32 (s : Elf32Shdr) : List Nat :=
  encodeLE 4 s.sh_name ++
  encodeLE 4 (shTypeToU32 s.sh_type) ++
  encodeLE 4 s.sh_flags ++
  encodeLE 4 s.sh_addr ++
  encodeLE 4 s.sh_offset ++
  encodeLE 4 s.sh_size ++
  encodeLE 4 s.sh_link ++
  encodeLE 4 s.sh_info ++
  encodeLE 4 s.sh_addralign ++
  encodeLE 4 s.sh_entsize

/-- A whole 64-bit ELF image: header at offset 0, PHT at `e_phoff`, SHT at
`e_shoff`, zero padding between the pieces. -/
def encodeElf64 (h : Elf64Ehdr) (pht : List Elf64Phdr) (sht : List Elf64Shdr) :
    List Nat :=
  encodeEhdr64 h ++
  List.replicate (h.e_phoff - 64) 0 ++
  (pht.map encodePhdr64).flatten ++
  List.replicate (h.e_shoff - (h.e_phoff + 56 * pht.length)) 0 ++
  (sht.map encodeShdr64).flatten

/-- A whole 32-bit ELF image (header is 52 bytes, PHT entries 32, SHT
entries 40). -/
def encodeElf32 (h : Elf32Ehdr) (pht : List Elf32Phdr) (sht : List Elf32Shdr) :
    List Nat :=
  encodeEhdr32 h ++
  List.replicate (h.e_phoff - 52) 0 ++
  (pht.map encodePhdr32).flatten ++
  List.replicate (h.e_shoff - (h.e_phoff + 32 * pht.length)) 0 ++
  (sht.map encodeShdr32).flatten

/-- Field ranges under which a 64-bit header model is representable on disk:
the magic is the ELF magic and every numeric field fits its machine width. -/
def Elf64Ehdr.wf (h : Elf64Ehdr) : Prop :=
  h.e_ident.magic = elfMagic ∧ h.e_ident.abi_version < 256 ∧
  h.e_entry < 256 ^ 8 ∧ h.e_phoff < 256 ^ 8 ∧ h.e_shoff < 256 ^ 8 ∧
  h.e_flags < 256 ^ 4 ∧ h.e_ehsize < 256 ^ 2 ∧ h.e_phentsize < 256 ^ 2 ∧
  h.e_phnum < 256 ^ 2 ∧ h.e_shentsize < 256 ^ 2 ∧ h.e_shnum < 256 ^ 2 ∧
  h.e_shstrndx < 256 ^ 2

/-- Field ranges for a 32-bit header model. -/
def Elf32Ehdr.wf (h : Elf32Ehdr) : Prop :=
  h.e_ident.magic = elfMagic ∧ h.e_ident.abi_version < 256 ∧
  h.e_entry < 256 ^ 4 ∧ h.e_phoff < 256 ^ 4 ∧ h.e_shoff < 256 ^ 4 ∧
  h.e_flags < 256 ^ 4 ∧ h.e_ehsize < 256 ^ 2 ∧ h.e_phentsize < 256 ^ 2 ∧
  h.e_phnum < 256 ^ 2 ∧ h.e_shentsize < 256 ^ 2 ∧ h.e_shnum < 256 ^ 2 ∧
  h.e_shstrndx < 256 ^ 2

/-- Field ranges for a 64-bit program header entry model. -/
def Elf64Phdr.wf (p : Elf64Phdr) : Prop :=
  p.p_flags < 256 ^ 4 ∧ p.p_offset < 256 ^ 8 ∧ p.p_vaddr < 256 ^ 8 ∧
  p.p_paddr < 256 ^ 8 ∧ p.p_filesz < 256 ^ 8 ∧ p.p_memsz < 256 ^ 8 ∧
  p.p_align < 256 ^ 8

/-- Field ranges for a 32-bit program header entry model. -/
def Elf32Phdr.wf (p : Elf32Phdr) : Prop :=
  p.p_flags < 256 ^ 4 ∧ p.p_offset < 256 ^ 4 ∧ p.p_vaddr < 256 ^ 4 ∧
  p.p_paddr < 256 ^ 4 ∧ p.p_filesz < 256 ^ 4 ∧ p.p_memsz < 256 ^ 4 ∧
  p.p_align < 256 ^ 4

/-- Field ranges for a 64-bit section header entry model. -/
def Elf64Shdr.wf (s : Elf64Shdr) : Prop :=
  s.sh_name < 256 ^ 4 ∧ s.sh_flags < 256 ^ 8 ∧ s.sh_addr < 256 ^ 8 ∧
  s.sh_offset < 256 ^ 8 ∧ s.sh_size < 256 ^ 8 ∧ s.sh_link < 256 ^ 4 ∧
  s.sh_info < 256 ^ 4 ∧ s.sh_addralign < 256 ^ 8 ∧ s.sh_entsize < 256 ^ 8

/-- Field ranges for a 32-bit section header entry model. -/
def Elf32Shdr.wf (s : Elf32Shdr) : Prop :=
  s.sh_name < 256 ^ 4 ∧ s.sh_flags < 256 ^ 4 ∧ s.sh_addr < 256 ^ 4 ∧
  s.sh_offset < 256 ^ 4 ∧ s.sh_size < 256 ^ 4 ∧ s.sh_link < 256 ^ 4 ∧
  s.sh_info < 256 ^ 4 ∧ s.sh_addralign < 256 ^ 4 ∧ s.sh_entsize < 256 ^ 4

/-! ### Lemmas about the byte readers and serializers -/

theorem encodeLE_length (n x : Nat) : (encodeLE n x).length = n := by
  induction n generalizing x with
  | zero => rfl
  | succ n ih => simp [encodeLE, ih]

theorem leVal_encodeLE (n x : Nat) (h : x < 256 ^ n) : leVal (encodeLE n x) = x := by
  induction n generalizing x with
  | zero => simp [encodeLE, leVal]; omega
  | succ n ih =>
    have hd : x / 256 < 256 ^ n := by
      apply Nat.div_lt_of_lt_mul
      rw [Nat.pow_succ] at h
      omega
    simp [encodeLE, leVal, ih _ hd]
    omega

theorem readExactN_left (n : Nat) (l r : List Nat) (h : l.length = n) :
    readExactN n (l ++ r) = some (l, r) := by
  simp [readExactN, List.take_left' h, List.drop_left' h, ← h, Nat.le_add_right]

theorem read_uN_encodeLE (n x : Nat) (r : List Nat) (h : x < 256 ^ n) :
    read_uN n (encodeLE n x ++ r) = some (x, r) := by
  rw [read_uN, readExactN_left n _ _ (encodeLE_length n x)]
  simp [leVal_encodeLE n x h]

theorem read_u8_enc (x : Nat) (r : List Nat) (h : x < 256 ^ 1) :
    read_u8 (encodeLE 1 x ++ r) = some (x, r) := read_uN_encodeLE 1 x r h

theorem read_u16_enc (x : Nat) (r : List Nat) (h : x < 256 ^ 2) :
    read_u16 (encodeLE 2 x ++ r) = some (x, r) := read_uN_encodeLE 2 x r h

theorem read_u32_enc (x : Nat) (r : List Nat) (h : x < 256 ^ 4) :
    read_u32 (encodeLE 4 x ++ r) = some (x, r) := read_uN_encodeLE 4 x r h

theorem read_u64_enc (x : Nat) (r : List Nat) (h : x < 256 ^ 8) :
    read_u64 (encodeLE 8 x ++ r) = some (x, r) := read_uN_encodeLE 8 x r h

theorem eiClassFrom_to (c : EiClass) : eiClassFromU8 (eiClassToU8 c) = some c := by
  cases c <;> rfl

theorem eiDataFrom_to (c : EiData) : eiDataFromU8 (eiDataToU8 c) = some c := by
  cases c <;> rfl

theorem eiVersionFrom_to (c : EiVersion) : eiVersionFromU8 (eiVersionToU8 c) = some c := by
  cases c <;> rfl

theorem eiOsabiFrom_to (c : EiOsabi) : eiOsabiFromU8 (eiOsabiToU8 c) = some c := by
  cases c <;> rfl

theorem eTypeFrom_to (c : EType) : eTypeFromU16 (eTypeToU16 c) = some c := by
  cases c <;> rfl

theorem eMachineFrom_to (c : EMachine) : eMachineFromU16 (eMachineToU16 c) = some c := by
  cases c <;> rfl

theorem eVersionFrom_to (c : EVersion) : eVersionFromU32 (eVersionToU32 c) = some c := by
  cases c <;> rfl

theorem pTypeFrom_to (c : PType) : pTypeFromU32 (pTypeToU32 c) = some c := by
  cases c <;> rfl

theorem shTypeFrom_to (c : SHType) : shTypeFromU32 (shTypeToU32 c) = some c := by
  cases c <;> rfl

theorem eTypeToU16_lt (c : EType) : eTypeToU16 c < 256 ^ 2 := by
  cases c <;> decide

theorem eMachineToU16_lt (c : EMachine) : eMachineToU16 c < 256 ^ 2 := by
  cases c <;> decide

theorem eVersionToU32_lt (c : EVersion) : eVersionToU32 c < 256 ^ 4 := by
  cases c <;> decide

theorem pTypeToU32_lt (c : PType) : pTypeToU32 c < 256 ^ 4 := by
  cases c <;> decide

theorem shTypeToU32_lt (c : SHType) : shTypeToU32 c < 256 ^ 4 := by
  cases c <;> decide

theorem Elf64Ehdr_from_io_encode (h : Elf64Ehdr) (r : List Nat) (hw : h.wf) :
    Elf64Ehdr.from_io (encodeEhdr64 h ++ r) = .ok (h, r) := by
  obtain ⟨⟨mag, cls, endi, iver, osb, abv⟩, ety, mach, ever, entry, phoff, shoff,
    flg, ehs, phes, phn, shes, shn, shsx⟩ := h
  obtain ⟨hm, habv, hentry, hphoff, hshoff, hflg, hehs, hphes, hphn, hshes, hshn, hshsx⟩ := hw
  simp only at hm habv hentry hphoff hshoff hflg hehs hphes hphn hshes hshn hshsx
  subst hm
  have hbuf : encodeIdent ⟨elfMagic, cls, endi, iver, osb, abv⟩ =
      0x7f :: 0x45 :: 0x4c :: 0x46 :: eiClassToU8 cls :: eiDataToU8 endi ::
      eiVersionToU8 iver :: eiOsabiToU8 osb :: abv ::
      0 :: 0 :: 0 :: 0 :: 0 :: 0 :: 0 :: [] := rfl
  have hlen : (encodeIdent ⟨elfMagic, cls, endi, iver, osb, abv⟩).length = 16 := by
    rw [hbuf]; rfl
  simp only [encodeEhdr64, List.append_assoc]
  rw [Elf64Ehdr.from_io, readExactN_left 16 _ _ hlen]
  simp only [hbuf]
  norm_num [List.take, List.getD, List.get?,
    eiClassFrom_to, eiDataFrom_to, eiVersionFrom_to, eiOsabiFrom_to,
    read_u16_enc _ _ (eTypeToU16_lt ety),
    read_u16_enc _ _ (eMachineToU16_lt mach),
    read_u32_enc _ _ (eVersionToU32_lt ever),
    read_u64_enc _ _ hentry, read_u64_enc _ _ hphoff, read_u64_enc _ _ hshoff,
    read_u32_enc _ _ hflg,
    read_u16_enc _ _ hehs, read_u16_enc _ _ hphes, read_u16_enc _ _ hphn,
    read_u16_enc _ _ hshes, read_u16_enc _ _ hshn, read_u16_enc _ _ hshsx,
    eTypeFrom_to, eMachineFrom_to, eVersionFrom_to, elfMagic]

theorem Elf32Ehdr_from_io_encode (h : Elf32Ehdr) (r : List Nat) (hw : h.wf) :
    Elf32Ehdr.from_io (encodeEhdr32 h ++ r) = .ok (h, r) := by
  obtain ⟨⟨mag, cls, endi, iver, osb, abv⟩, ety, mach, ever, entry, phoff, shoff,
    flg, ehs, phes, phn, shes, shn, shsx⟩ := h
  obtain ⟨hm, habv, hentry, hphoff, hshoff, hflg, hehs, hphes, hphn, hshes, hshn, hshsx⟩ := hw
  simp only at hm habv hentry hphoff hshoff hflg hehs hphes hphn hshes hshn hshsx
  subst hm
  have hbuf : encodeIdent ⟨elfMagic, cls, endi, iver, osb, abv⟩ =
      0x7f :: 0x45 :: 0x4c :: 0x46 :: eiClassToU8 cls :: eiDataToU8 endi ::
      eiVersionToU8 iver :: eiOsabiToU8 osb :: abv ::
      0 :: 0 :: 0 :: 0 :: 0 :: 0 :: 0 :: [] := rfl
  have hlen : (encodeIdent ⟨elfMagic, cls, endi, iver, osb, abv⟩).length = 16 := by
    rw [hbuf]; rfl
  simp only [encodeEhdr32, List.append_assoc]
  rw [Elf32Ehdr.from_io, readExactN_left 16 _ _ hlen]
  simp only [hbuf]
  norm_num [List.take, List.getD, List.get?,
    eiClassFrom_to, eiDataFrom_to, eiVersionFrom_to, eiOsabiFrom_to,
    read_u16_enc _ _ (eTypeToU16_lt ety),
    read_u16_enc _ _ (eMachineToU16_lt mach),
    read_u32_enc _ _ (eVersionToU32_lt ever),
    read_u32_enc _ _ hentry, read_u32_enc _ _ hphoff, read_u32_enc _ _ hshoff,
    read_u32_enc _ _ hflg,
    read_u16_enc _ _ hehs, read_u16_enc _ _ hphes, read_u16_enc _ _ hphn,
    read_u16_enc _ _ hshes, read_u16_enc _ _ hshn, read_u16_enc _ _ hshsx,
    eTypeFrom_to, eMachineFrom_to, eVersionFrom_to, elfMagic]

theorem Elf64Phdr_from_io_encode (p : Elf64Phdr) (r : List Nat) (hw : p.wf) :
    Elf64Phdr.from_io (encodePhdr64 p ++ r) = .ok (p, r) := by
  obtain ⟨pt, fl, off, va, pa, fs, ms, al⟩ := p
  obtain ⟨hfl, hoff, hva, hpa, hfs, hms, hal⟩ := hw
  simp only at hfl hoff hva hpa hfs hms hal
  simp only [encodePhdr64, List.append_assoc]
  rw [Elf64Phdr.from_io]
  norm_num [read_u32_enc _ _ (pTypeToU32_lt pt), pTypeFrom_to,
    read_u32_enc _ _ hfl, read_u64_enc _ _ hoff, read_u64_enc _ _ hva,
    read_u64_enc _ _ hpa, read_u64_enc _ _ hfs, read_u64_enc _ _ hms,
    read_u64_enc _ _ hal]

theorem Elf32Phdr_from_io_encode (p : Elf32Phdr) (r : List Nat) (hw : p.wf) :
    Elf32Phdr.from_io (encodePhdr32 p ++ r) = .ok (p, r) := by
  obtain ⟨pt, off, va, pa, fs, ms, fl, al⟩ := p
  obtain ⟨hfl, hoff, hva, hpa, hfs, hms, hal⟩ := hw
  simp only at hfl hoff hva hpa hfs hms hal
  simp only [encodePhdr32, List.append_assoc]
  rw [Elf32Phdr.from_io]
  norm_num [read_u32_enc _ _ (pTypeToU32_lt pt), pTypeFrom_to,
    read_u32_enc _ _ hfl, read_u32_enc _ _ hoff, read_u32_enc _ _ hva,
    read_u32_enc _ _ hpa, read_u32_enc _ _ hfs, read_u32_enc _ _ hms,
    read_u32_enc _ _ hal]

theorem Elf64Shdr_from_io_encode (s : Elf64Shdr) (r : List Nat) (hw : s.wf) :
    Elf64Shdr.from_io (encodeShdr64 s ++ r) = .ok (s, r) := by
  obtain ⟨nm, st, fl, ad, off, sz, lk, info, aa, es⟩ := s
  obtain ⟨hnm, hfl, had, hoff, hsz, hlk, hinfo, haa, hes⟩ := hw
  simp only at hnm hfl had hoff hsz hlk hinfo haa hes
  simp only [encodeShdr64, List.append_assoc]
  rw [Elf64Shdr.from_io]
  norm_num [read_u32_enc _ _ hnm, read_u32_enc _ _ (shTypeToU32_lt st), shTypeFrom_to,
    read_u64_enc _ _ hfl, read_u64_enc _ _ had, read_u64_enc _ _ hoff,
    read_u64_enc _ _ hsz, read_u32_enc _ _ hlk, read_u32_enc _ _ hinfo,
    read_u64_enc _ _ haa, read_u64_enc _ _ hes]

theorem Elf32Shdr_from_io_encode (s : Elf32Shdr) (r : List Nat) (hw : s.wf) :
    Elf32Shdr.from_io (encodeShdr32 s ++ r) = .ok (s, r) := by
  obtain ⟨nm, st, fl, ad, off, sz, lk, info, aa, es⟩ := s
  obtain ⟨hnm, hfl, had, hoff, hsz, hlk, hinfo, haa, hes⟩ := hw
  simp only at hnm hfl had hoff hsz hlk hinfo haa hes
  simp only [encodeShdr32, List.append_assoc]
  rw [Elf32Shdr.from_io]
  norm_num [read_u32_enc _ _ hnm, read_u32_enc _ _ (shTypeToU32_lt st), shTypeFrom_to,
    read_u32_enc _ _ hfl, read_u32_enc _ _ had, read_u32_enc _ _ hoff,
    read_u32_enc _ _ hsz, read_u32_enc _ _ hlk, read_u32_enc _ _ hinfo,
    read_u32_enc _ _ haa, read_u32_enc _ _ hes]

theorem parseEntries_encode {α : Type} (p : List Nat → PResult (α × List Nat))
    (enc : α → List Nat) (l : List α) (r : List Nat)
    (hp : ∀ a ∈ l, ∀ r' : List Nat, p (enc a ++ r') = .ok (a, r')) :
    parseEntries p l.length ((l.map enc).flatten ++ r) = .ok (l, r) := by
  induction l generalizing r with
  | nil => simp [parseEntries]
  | cons a t ih =>
    have h1 : p (enc a ++ ((t.map enc).flatten ++ r)) = .ok (a, (t.map enc).flatten ++ r) :=
      hp a (by simp) _
    have h2 : parseEntries p t.length ((t.map enc).flatten ++ r) = .ok (t, r) :=
      ih r (fun b hb r' => hp b (List.mem_cons_of_mem a hb) r')
    simp [parseEntries, List.append_assoc, h1, h2]

theorem encodeEhdr64_length (h : Elf64Ehdr) (hm : h.e_ident.magic = elfMagic) :
    (encodeEhdr64 h).length = 64 := by
  simp [encodeEhdr64, encodeIdent, hm, elfMagic, encodeLE_length]

theorem encodeEhdr32_length (h : Elf32Ehdr) (hm : h.e_ident.magic = elfMagic) :
    (encodeEhdr32 h).length = 52 := by
  simp [encodeEhdr32, encodeIdent, hm, elfMagic, encodeLE_length]

theorem encodePhdr64_length (p : Elf64Phdr) : (encodePhdr64 p).length = 56 := by
  simp [encodePhdr64, encodeLE_length]

theorem encodePhdr32_length (p : Elf32Phdr) : (encodePhdr32 p).length = 32 := by
  simp [encodePhdr32, encodeLE_length]

theorem encodeShdr64_length (s : Elf64Shdr) : (encodeShdr64 s).length = 64 := by
  simp [encodeShdr64, encodeLE_length]

theorem encodeShdr32_length (s : Elf32Shdr) : (encodeShdr32 s).length = 40 := by
  simp [encodeShdr32, encodeLE_length]

theorem flatten_map_length_const {α : Type} (f : α → List Nat) (c : Nat)
    (hf : ∀ a, (f a).length = c) (l : List α) :
    ((l.map f).flatten).length = c * l.length := by
  induction l with
  | nil => simp
  | cons a t ih => simp [ih, hf a]; ring

theorem ELF64_load_encode (h : Elf64Ehdr) (pht : List Elf64Phdr) (sht : List Elf64Shdr)
    (hw : h.wf) (hwp : ∀ p ∈ pht, p.wf) (hws : ∀ s ∈ sht, s.wf)
    (hphn : h.e_phnum = pht.length) (hshn : h.e_shnum = sht.length)
    (hpo : 64 ≤ h.e_phoff) (hso : h.e_phoff + 56 * pht.length ≤ h.e_shoff) :
    ELF64.load (encodeElf64 h pht sht) = .ok ⟨h, pht, sht, defaultSecurityOptions⟩ := by
  set F := encodeElf64 h pht sht with hF
  have hhdr : Elf64Ehdr.from_io F =
      .ok (h, List.replicate (h.e_phoff - 64) 0 ++ ((pht.map encodePhdr64).flatten ++
        (List.replicate (h.e_shoff - (h.e_phoff + 56 * pht.length)) 0 ++
         (sht.map encodeShdr64).flatten))) := by
    rw [hF]; simp only [encodeElf64, List.append_assoc]
    exact Elf64Ehdr_from_io_encode h _ hw
  have hd1 : F.drop h.e_phoff = (pht.map encodePhdr64).flatten ++
      (List.replicate (h.e_shoff - (h.e_phoff + 56 * pht.length)) 0 ++
       (sht.map encodeShdr64).flatten) := by
    rw [hF]
    have hsplit : encodeElf64 h pht sht =
        (encodeEhdr64 h ++ List.replicate (h.e_phoff - 64) 0) ++
        ((pht.map encodePhdr64).flatten ++
         (List.replicate (h.e_shoff - (h.e_phoff + 56 * pht.length)) 0 ++
          (sht.map encodeShdr64).flatten)) := by
      simp only [encodeElf64, List.append_assoc]
    rw [hsplit, List.drop_left']
    simp [encodeEhdr64_length h hw.1, List.length_replicate]
    omega
  have hp1 : parseEntries Elf64Phdr.from_io h.e_phnum (F.drop h.e_phoff) =
      .ok (pht, List.replicate (h.e_shoff - (h.e_phoff + 56 * pht.length)) 0 ++
        (sht.map encodeShdr64).flatten) := by
    rw [hd1, hphn]
    exact parseEntries_encode _ _ _ _
      (fun p hp r' => Elf64Phdr_from_io_encode p r' (hwp p hp))
  have hd2 : F.drop h.e_shoff = (sht.map encodeShdr64).flatten := by
    rw [hF]
    have hsplit : encodeElf64 h pht sht =
        (encodeEhdr64 h ++ (List.replicate (h.e_phoff - 64) 0 ++
         ((pht.map encodePhdr64).flatten ++
          List.replicate (h.e_shoff - (h.e_phoff + 56 * pht.length)) 0))) ++
        (sht.map encodeShdr64).flatten := by
      simp only [encodeElf64, List.append_assoc]
    rw [hsplit, List.drop_left']
    have h56 : ((pht.map encodePhdr64).flatten).length = 56 * pht.length :=
      flatten_map_length_const _ 56 (fun p => encodePhdr64_length p) pht
    simp [encodeEhdr64_length h hw.1, List.length_replicate, h56]
    omega
  have hp2 : parseEntries Elf64Shdr.from_io h.e_shnum (F.drop h.e_shoff) =
      .ok (sht, []) := by
    rw [hd2, hshn]
    have hpe := parseEntries_encode Elf64Shdr.from_io encodeShdr64 sht []
      (fun s hs r' => Elf64Shdr_from_io_encode s r' (hws s hs))
    simpa using hpe
  simp [ELF64.load, hhdr, hp1, hp2]

theorem ELF32_load_encode (h : Elf32Ehdr) (pht : List Elf32Phdr) (sht : List Elf32Shdr)
    (hw : h.wf) (hwp : ∀ p ∈ pht, p.wf) (hws : ∀ s ∈ sht, s.wf)
    (hphn : h.e_phnum = pht.length) (hshn : h.e_shnum = sht.length)
    (hpo : 52 ≤ h.e_phoff) (hso : h.e_phoff + 32 * pht.length ≤ h.e_shoff) :
    ELF32.load (encodeElf32 h pht sht) = .ok ⟨h, pht, sht, defaultSecurityOptions⟩ := by
  set F := encodeElf32 h pht sht with hF
  have hhdr : Elf32Ehdr.from_io F =
      .ok (h, List.replicate (h.e_phoff - 52) 0 ++ ((pht.map encodePhdr32).flatten ++
        (List.replicate (h.e_shoff - (h.e_phoff + 32 * pht.length)) 0 ++
         (sht.map encodeShdr32).flatten))) := by
    rw [hF]; simp only [encodeElf32, List.append_assoc]
    exact Elf32Ehdr_from_io_encode h _ hw
  have hd1 : F.drop h.e_phoff = (pht.map encodePhdr32).flatten ++
      (List.replicate (h.e_shoff - (h.e_phoff + 32 * pht.length)) 0 ++
       (sht.map encodeShdr32).flatten) := by
    rw [hF]
    have hsplit : encodeElf32 h pht sht =
        (encodeEhdr32 h ++ List.replicate (h.e_phoff - 52) 0) ++
        ((pht.map encodePhdr32).flatten ++
         (List.replicate (h.e_shoff - (h.e_phoff + 32 * pht.length)) 0 ++
          (sht.map encodeShdr32).flatten)) := by
      simp only [encodeElf32, List.append_assoc]
    rw [hsplit, List.drop_left']
    simp [encodeEhdr32_length h hw.1, List.length_replicate]
    omega
  have hp1 : parseEntries Elf32Phdr.from_io h.e_phnum (F.drop h.e_phoff) =
      .ok (pht, List.replicate (h.e_shoff - (h.e_phoff + 32 * pht.length)) 0 ++
        (sht.map encodeShdr32).flatten) := by
    rw [hd1, hphn]
    exact parseEntries_encode _ _ _ _
      (fun p hp r' => Elf32Phdr_from_io_encode p r' (hwp p hp))
  have hd2 : F.drop h.e_shoff = (sht.map encodeShdr32).flatten := by
    rw [hF]
    have hsplit : encodeElf32 h pht sht =
        (encodeEhdr32 h ++ (List.replicate (h.e_phoff - 52) 0 ++
         ((pht.map encodePhdr32).flatten ++
          List.replicate (h.e_shoff - (h.e_phoff + 32 * pht.length)) 0))) ++
        (sht.map encodeShdr32).flatten := by
      simp only [encodeElf32, List.append_assoc]
    rw [hsplit, List.drop_left']
    have h32 : ((pht.map encodePhdr32).flatten).length = 32 * pht.length :=
      flatten_map_length_const _ 32 (fun p => encodePhdr32_length p) pht
    simp [encodeEhdr32_length h hw.1, List.length_replicate, h32]
    omega
  have hp2 : parseEntries Elf32Shdr.from_io h.e_shnum (F.drop h.e_shoff) =
      .ok (sht, []) := by
    rw [hd2, hshn]
    have hpe := parseEntries_encode Elf32Shdr.from_io encodeShdr32 sht []
      (fun s hs r' => Elf32Shdr_from_io_encode s r' (hws s hs))
    simpa using hpe
  simp [ELF32.load, hhdr, hp1, hp2]

theorem get_options_64_ok_elim (elf : ELF64) (file : List Nat) (s : SecurityOptions)
    (hok : get_options_64 elf file = .ok s) :
    ∃ sec buf i ent buf2 g,
      elf.sht.get? elf.header.e_shstrndx = some sec ∧
      readRegion file sec.sh_offset sec.sh_size = some buf ∧
      findSub dotStrtabBytes buf = some i ∧
      elf.sht.find? (fun x => x.sh_name == i % 4294967296) = some ent ∧
      readRegion file ent.sh_offset ent.sh_size = some buf2 ∧
      elf.pht.find? (fun x => x.p_type == PType.PtGnuStack) = some g ∧
      s.canary = hasSub buf2 stackChkFailBytes ∧
      s.nx = !g.has_x ∧
      s.relro = (match elf.pht.find? (fun x => x.p_type == PType.PtGnuRelro) with
                 | some _ =>
                   if !(hasSub buf gotPltBytes) then RelRo.FullRelRo else RelRo.PartialRelRo
                 | none => RelRo.NoRelRo) ∧
      ((elf.header.e_type = EType.EtDyn ∧ s.pie = true) ∨
       (elf.header.e_type = EType.EtExec ∧ s.pie = false)) := by
  unfold get_options_64 at hok
  repeat' split at hok
  all_goals simp_all
  all_goals (cases hok; rename_i hty; simp [hty])

theorem get_options_32_ok_elim (elf : ELF32) (file : List Nat) (s : SecurityOptions)
    (hok : get_options_32 elf file = .ok s) :
    ∃ sec buf i ent buf2 g,
      elf.sht.get? elf.header.e_shstrndx = some sec ∧
      readRegion file sec.sh_offset sec.sh_size = some buf ∧
      findSub dotStrtabBytes buf = some i ∧
      elf.sht.find? (fun x => x.sh_name == i % 4294967296) = some ent ∧
      readRegion file ent.sh_offset ent.sh_size = some buf2 ∧
      elf.pht.find? (fun x => x.p_type == PType.PtGnuStack) = some g ∧
      s.canary = hasSub buf2 stackChkFailBytes ∧
      s.nx = !g.has_x ∧
      s.relro = (match elf.pht.find? (fun x => x.p_type == PType.PtGnuRelro) with
                 | some _ =>
                   if !(hasSub buf gotPltBytes) then RelRo.FullRelRo else RelRo.PartialRelRo
                 | none => RelRo.NoRelRo) ∧
      ((elf.header.e_type = EType.EtDyn ∧ s.pie = true) ∨
       (elf.header.e_type = EType.EtExec ∧ s.pie = false)) := by
  unfold get_options_32 at hok
  repeat' split at hok
  all_goals simp_all
  all_goals (cases hok; rename_i hty; simp [hty])

/-! ### Claim theorems -/

/-- C7: for every byte stream and every width N ∈ {1,2,4,8}, the primitive
reader of width N returns the unsigned little-endian integer denoted by the
next N bytes (`leVal` of them) and consumes exactly those N bytes when at
least N remain, and returns `none` when fewer than N remain — a partial read
never succeeds. -/
theorem claim_C7 (s : List Nat) :
    (1 ≤ s.length → read_u8 s = some (leVal (s.take 1), s.drop 1)) ∧
    (s.length < 1 → read_u8 s = none) ∧
    (2 ≤ s.length → read_u16 s = some (leVal (s.take 2), s.drop 2)) ∧
    (s.length < 2 → read_u16 s = none) ∧
    (4 ≤ s.length → read_u32 s = some (leVal (s.take 4), s.drop 4)) ∧
    (s.length < 4 → read_u32 s = none) ∧
    (8 ≤ s.length → read_u64 s = some (leVal (s.take 8), s.drop 8)) ∧
    (s.length < 8 → read_u64 s = none) := by
  unfold read_u8 read_u16 read_u32 read_u64 read_uN readExactN
  refine ⟨?_, ?_, ?_, ?_, ?_, ?_, ?_, ?_⟩ <;> intro h
  all_goals first
    | rw [if_pos h]
    | rw [if_neg (by omega)]

/-- Witness for C7 at concrete streams, discharging both the
enough-bytes and the too-few-bytes hypotheses for every width. -/
theorem claim_C7_witness :
    read_u8 [7, 9] = some (7, [9]) ∧ read_u8 [] = none ∧
    read_u16 [1, 2] = some (513, []) ∧ read_u16 [1] = none ∧
    read_u32 [1, 0, 0, 0, 9] = some (1, [9]) ∧ read_u32 [1, 2, 3] = none ∧
    read_u64 [2, 1, 0, 0, 0, 0, 0, 0] = some (258, []) ∧
    read_u64 [1, 2, 3, 4, 5, 6, 7] = none :=
  ⟨by simpa using (claim_C7 [7, 9]).1 (by decide),
   (claim_C7 []).2.1 (by decide),
   by simpa using (claim_C7 [1, 2]).2.2.1 (by decide),
   (claim_C7 [1]).2.2.2.1 (by decide),
   by simpa using (claim_C7 [1, 0, 0, 0, 9]).2.2.2.2.1 (by decide),
   (claim_C7 [1, 2, 3]).2.2.2.2.2.1 (by decide),
   by simpa using (claim_C7 [2, 1, 0, 0, 0, 0, 0, 0]).2.2.2.2.2.2.1 (by decide),
   (claim_C7 [1, 2, 3, 4, 5, 6, 7]).2.2.2.2.2.2.2 (by decide)⟩

/-- C8: any byte sequence whose first 4 bytes differ from the ELF magic is
rejected (the process aborts) by both header decoders; no identification or
header field beyond the magic influences the outcome, which is the same
`panic` for every continuation of the stream. -/
theorem claim_C8 (s : List Nat) (hmag : s.take 4 ≠ elfMagic) :
    Elf64Ehdr.from_io s = .panic ∧ Elf32Ehdr.from_io s = .panic := by
  have hb : (s.take 16).take 4 ≠ elfMagic := by
    rw [List.take_take]
    simpa using hmag
  by_cases h16 : 16 ≤ s.length
  · constructor
    · unfold Elf64Ehdr.from_io
      simp only [readExactN]
      rw [if_pos h16]
      simp [hb]
    · unfold Elf32Ehdr.from_io
      simp only [readExactN]
      rw [if_pos h16]
      simp [hb]
  · constructor
    · unfold Elf64Ehdr.from_io
      simp only [readExactN]
      rw [if_neg h16]
    · unfold Elf32Ehdr.from_io
      simp only [readExactN]
      rw [if_neg h16]

/-- Witness for C8 at a concrete non-ELF prefix. -/
theorem claim_C8_witness :
    Elf64Ehdr.from_io [1, 2, 3, 4, 5] = .panic ∧
    Elf32Ehdr.from_io [1, 2, 3, 4, 5] = .panic :=
  claim_C8 [1, 2, 3, 4, 5] (by decide)

/-- C10: when `e_shstrndx` is at least the number of SHT entries, both
mitigation-inference functions return `None` (`.fail`, the `?` on
`Vec::get`), not a process abort and not a partial result. -/
theorem claim_C10 :
    (∀ (elf : ELF64) (file : List Nat),
       elf.sht.length ≤ elf.header.e_shstrndx → get_options_64 elf file = .fail) ∧
    (∀ (elf : ELF32) (file : List Nat),
       elf.sht.length ≤ elf.header.e_shstrndx → get_options_32 elf file = .fail) := by
  constructor
  · intro elf file h
    unfold get_options_64
    rw [List.get?_eq_none.2 h]
  · intro elf file h
    unfold get_options_32
    rw [List.get?_eq_none.2 h]

/-- Identification block with all-zero enum bytes (class `None`). -/
def zeroIdent : EIdentStruct :=
  ⟨elfMagic, .ElfClassNone, .ElfDataNone, .EvNone, .ElfOsabiNONE, 0⟩

/-- All-zero 64-bit header (every enum at discriminant 0). -/
def zeroEhdr64 : Elf64Ehdr :=
  ⟨zeroIdent, .EtNone, .EmNone, .EvNone, 0, 0, 0, 0, 0, 0, 0, 0, 0, 0⟩

/-- All-zero 32-bit header (every enum at discriminant 0). -/
def zeroEhdr32 : Elf32Ehdr :=
  ⟨zeroIdent, .EtNone, .EmNone, .EvNone, 0, 0, 0, 0, 0, 0, 0, 0, 0, 0⟩

/-- A 64-bit ELF value with an empty section header table. -/
def exEmptyElf64 : ELF64 := ⟨zeroEhdr64, [], [], defaultSecurityOptions⟩

/-- A 32-bit ELF value with an empty section header table. -/
def exEmptyElf32 : ELF32 := ⟨zeroEhdr32, [], [], defaultSecurityOptions⟩

/-- Witness for C10: on an ELF with no sections and `e_shstrndx = 0`, both
inference functions return `.fail`. -/
theorem claim_C10_witness :
    get_options_64 exEmptyElf64 [] = .fail ∧ get_options_32 exEmptyElf32 [] = .fail :=
  ⟨claim_C10.1 exEmptyElf64 [] (by decide), claim_C10.2 exEmptyElf32 [] (by decide)⟩

/-- C9: the 64-bit program-header decoder assigns consecutive stream bytes to
segment type, flags, offset, virtual address, physical address, file size,
memory size, alignment (flags before offsets), while the 32-bit decoder
assigns them to segment type, offset, virtual address, physical address,
file size, memory size, flags, alignment (offsets before flags). -/
theorem claim_C9 :
    (∀ (t : PType) (fl off va pa fs ms al : Nat) (r : List Nat),
       fl < 256 ^ 4 → off < 256 ^ 8 → va < 256 ^ 8 → pa < 256 ^ 8 →
       fs < 256 ^ 8 → ms < 256 ^ 8 → al < 256 ^ 8 →
       Elf64Phdr.from_io (encodeLE 4 (pTypeToU32 t) ++ encodeLE 4 fl ++
           encodeLE 8 off ++ encodeLE 8 va ++ encodeLE 8 pa ++ encodeLE 8 fs ++
           encodeLE 8 ms ++ encodeLE 8 al ++ r) =
         .ok (⟨t, fl, off, va, pa, fs, ms, al⟩, r)) ∧
    (∀ (t : PType) (off va pa fs ms fl al : Nat) (r : List Nat),
       off < 256 ^ 4 → va < 256 ^ 4 → pa < 256 ^ 4 → fs < 256 ^ 4 →
       ms < 256 ^ 4 → fl < 256 ^ 4 → al < 256 ^ 4 →
       Elf32Phdr.from_io (encodeLE 4 (pTypeToU32 t) ++ encodeLE 4 off ++
           encodeLE 4 va ++ encodeLE 4 pa ++ encodeLE 4 fs ++ encodeLE 4 ms ++
           encodeLE 4 fl ++ encodeLE 4 al ++ r) =
         .ok (⟨t, off, va, pa, fs, ms, fl, al⟩, r)) := by
  constructor
  · intro t fl off va pa fs ms al r h1 h2 h3 h4 h5 h6 h7
    have he := Elf64Phdr_from_io_encode ⟨t, fl, off, va, pa, fs, ms, al⟩ r
      ⟨h1, h2, h3, h4, h5, h6, h7⟩
    simpa [encodePhdr64, List.append_assoc] using he
  · intro t off va pa fs ms fl al r h1 h2 h3 h4 h5 h6 h7
    have he := Elf32Phdr_from_io_encode ⟨t, off, va, pa, fs, ms, fl, al⟩ r
      ⟨h6, h1, h2, h3, h4, h5, h7⟩
    simpa [encodePhdr32, List.append_assoc] using he

/-- Witness for C9 at a concrete entry (`PT_LOAD`, flags 5). -/
theorem claim_C9_witness :
    Elf64Phdr.from_io (encodeLE 4 (pTypeToU32 .PtLoad) ++ encodeLE 4 5 ++
        encodeLE 8 1 ++ encodeLE 8 2 ++ encodeLE 8 3 ++ encodeLE 8 4 ++
        encodeLE 8 6 ++ encodeLE 8 7 ++ []) =
      .ok (⟨.PtLoad, 5, 1, 2, 3, 4, 6, 7⟩, []) ∧
    Elf32Phdr.from_io (encodeLE 4 (pTypeToU32 .PtLoad) ++ encodeLE 4 1 ++
        encodeLE 4 2 ++ encodeLE 4 3 ++ encodeLE 4 4 ++ encodeLE 4 6 ++
        encodeLE 4 5 ++ encodeLE 4 7 ++ []) =
      .ok (⟨.PtLoad, 1, 2, 3, 4, 6, 5, 7⟩, []) :=
  ⟨claim_C9.1 .PtLoad 5 1 2 3 4 6 7 [] (by norm_num) (by norm_num) (by norm_num)
     (by norm_num) (by norm_num) (by norm_num) (by norm_num),
   claim_C9.2 .PtLoad 1 2 3 4 6 5 7 [] (by norm_num) (by norm_num) (by norm_num)
     (by norm_num) (by norm_num) (by norm_num) (by norm_num)⟩

/-- C6 (round trip): for every header+PHT+SHT model whose enum fields are
(by typing) in the recognized value sets, whose magic is the ELF magic,
whose numeric fields fit their machine widths (`wf`), whose entry counts
match the tables, and whose table offsets place the tables after the header
without overlap, decoding the serialized byte image reproduces exactly the
same header, program header table and section header table, in order. -/
theorem claim_C6 :
    (∀ (h : Elf64Ehdr) (pht : List Elf64Phdr) (sht : List Elf64Shdr),
       h.wf → (∀ p ∈ pht, p.wf) → (∀ s ∈ sht, s.wf) →
       h.e_phnum = pht.length → h.e_shnum = sht.length →
       64 ≤ h.e_phoff → h.e_phoff + 56 * pht.length ≤ h.e_shoff →
       ELF64.load (encodeElf64 h pht sht) =
         .ok ⟨h, pht, sht, defaultSecurityOptions⟩) ∧
    (∀ (h : Elf32Ehdr) (pht : List Elf32Phdr) (sht : List Elf32Shdr),
       h.wf → (∀ p ∈ pht, p.wf) → (∀ s ∈ sht, s.wf) →
       h.e_phnum = pht.length → h.e_shnum = sht.length →
       52 ≤ h.e_phoff → h.e_phoff + 32 * pht.length ≤ h.e_shoff →
       ELF32.load (encodeElf32 h pht sht) =
         .ok ⟨h, pht, sht, defaultSecurityOptions⟩) :=
  ⟨fun h pht sht hw hwp hws hphn hshn hpo hso =>
     ELF64_load_encode h pht sht hw hwp hws hphn hshn hpo hso,
   fun h pht sht hw hwp hws hphn hshn hpo hso =>
     ELF32_load_encode h pht sht hw hwp hws hphn hshn hpo hso⟩

/-- 64-bit header of a one-segment, one-section round-trip example. -/
def rtEhdr64 : Elf64Ehdr :=
  ⟨⟨elfMagic, .ElfClass64, .ElfData2Lsb, .EvCurrent, .ElfOsabiNONE, 0⟩,
   .EtExec, .Emx86_64, .EvCurrent, 0x401000, 64, 120, 0, 64, 56, 1, 64, 1, 0⟩

/-- Program header of the round-trip example. -/
def rtPhdr64 : Elf64Phdr := ⟨.PtLoad, 5, 0, 0x400000, 0x400000, 184, 184, 4096⟩

/-- Section header of the round-trip example. -/
def rtShdr64 : Elf64Shdr := ⟨0, .ShtNULL, 0, 0, 0, 0, 0, 0, 0, 0⟩

/-- 32-bit header of a tables-empty round-trip example. -/
def rtEhdr32 : Elf32Ehdr :=
  ⟨⟨elfMagic, .ElfClass32, .ElfData2Lsb, .EvCurrent, .ElfOsabiNONE, 0⟩,
   .EtDyn, .Em386, .EvCurrent, 0x8048000, 52, 52, 0, 52, 32, 0, 40, 0, 0⟩

/-- Witness for C6: the concrete examples round-trip. -/
theorem claim_C6_witness :
    ELF64.load (encodeElf64 rtEhdr64 [rtPhdr64] [rtShdr64]) =
      .ok ⟨rtEhdr64, [rtPhdr64], [rtShdr64], defaultSecurityOptions⟩ ∧
    ELF32.load (encodeElf32 rtEhdr32 [] []) =
      .ok ⟨rtEhdr32, [], [], defaultSecurityOptions⟩ :=
  ⟨claim_C6.1 rtEhdr64 [rtPhdr64] [rtShdr64] (by constructor <;> decide)
     (by intro p hp; simp at hp; subst hp; constructor <;> decide)
     (by intro s hs; simp at hs; subst hs; constructor <;> decide)
     (by decide) (by decide) (by decide) (by decide),
   claim_C6.2 rtEhdr32 [] [] (by constructor <;> decide)
     (by intro p hp; simp at hp) (by intro s hs; simp at hs)
     (by decide) (by decide) (by decide) (by decide)⟩

/-- C2: whenever mitigation inference succeeds, the section used for the
canary check is the first SHT entry whose `sh_name` equals the byte offset
of the first occurrence of `".strtab"` inside the section-name string table
(the section at index `e_shstrndx`), and the reported canary is true exactly
when that entry's raw contents contain `"__stack_chk_fail"`. -/
theorem claim_C2 :
    (∀ (elf : ELF64) (file : List Nat) (s : SecurityOptions),
       get_options_64 elf file = .ok s →
       ∃ sec buf i ent buf2,
         elf.sht.get? elf.header.e_shstrndx = some sec ∧
         readRegion file sec.sh_offset sec.sh_size = some buf ∧
         findSub dotStrtabBytes buf = some i ∧
         elf.sht.find? (fun x => x.sh_name == i % 4294967296) = some ent ∧
         readRegion file ent.sh_offset ent.sh_size = some buf2 ∧
         (s.canary = true ↔ hasSub buf2 stackChkFailBytes = true)) ∧
    (∀ (elf : ELF32) (file : List Nat) (s : SecurityOptions),
       get_options_32 elf file = .ok s →
       ∃ sec buf i ent buf2,
         elf.sht.get? elf.header.e_shstrndx = some sec ∧
         readRegion file sec.sh_offset sec.sh_size = some buf ∧
         findSub dotStrtabBytes buf = some i ∧
         elf.sht.find? (fun x => x.sh_name == i % 4294967296) = some ent ∧
         readRegion file ent.sh_offset ent.sh_size = some buf2 ∧
         (s.canary = true ↔ hasSub buf2 stackChkFailBytes = true)) := by
  constructor
  · intro elf file s hok
    obtain ⟨sec, buf, i, ent, buf2, g, h1, h2, h3, h4, h5, h6, hc, -⟩ :=
      get_options_64_ok_elim elf file s hok
    exact ⟨sec, buf, i, ent, buf2, h1, h2, h3, h4, h5, by simp [hc]⟩
  · intro elf file s hok
    obtain ⟨sec, buf, i, ent, buf2, g, h1, h2, h3, h4, h5, h6, hc, -⟩ :=
      get_options_32_ok_elim elf file s hok
    exact ⟨sec, buf, i, ent, buf2, h1, h2, h3, h4, h5, by simp [hc]⟩

/-- C3: whenever mitigation inference succeeds, RELRO is `NoRelRo` when no
`PT_GNU_RELRO` program header exists, `PartialRelRo` when one exists and the
section-name string table contains `".got.plt"`, and `FullRelRo` when one
exists and the table does not contain it. -/
theorem claim_C3 :
    (∀ (elf : ELF64) (file : List Nat) (s : SecurityOptions),
       get_options_64 elf file = .ok s →
       ∃ sec buf,
         elf.sht.get? elf.header.e_shstrndx = some sec ∧
         readRegion file sec.sh_offset sec.sh_size = some buf ∧
         (elf.pht.find? (fun x => x.p_type == PType.PtGnuRelro) = none →
            s.relro = RelRo.NoRelRo) ∧
         (∀ g, elf.pht.find? (fun x => x.p_type == PType.PtGnuRelro) = some g →
            (hasSub buf gotPltBytes = true → s.relro = RelRo.PartialRelRo) ∧
            (hasSub buf gotPltBytes = false → s.relro = RelRo.FullRelRo))) ∧
    (∀ (elf : ELF32) (file : List Nat) (s : SecurityOptions),
       get_options_32 elf file = .ok s →
       ∃ sec buf,
         elf.sht.get? elf.header.e_shstrndx = some sec ∧
         readRegion file sec.sh_offset sec.sh_size = some buf ∧
         (elf.pht.find? (fun x => x.p_type == PType.PtGnuRelro) = none →
            s.relro = RelRo.NoRelRo) ∧
         (∀ g, elf.pht.find? (fun x => x.p_type == PType.PtGnuRelro) = some g →
            (hasSub buf gotPltBytes = true → s.relro = RelRo.PartialRelRo) ∧
            (hasSub buf gotPltBytes = false → s.relro = RelRo.FullRelRo))) := by
  constructor
  · intro elf file s hok
    obtain ⟨sec, buf, i, ent, buf2, g, h1, h2, h3, h4, h5, h6, hc, hnx, hr, -⟩ :=
      get_options_64_ok_elim elf file s hok
    refine ⟨sec, buf, h1, h2, fun hn => ?_, fun g' hg => ⟨fun hgp => ?_, fun hgp => ?_⟩⟩
    · rw [hr, hn]
    · rw [hr, hg]
      simp [hgp]
    · rw [hr, hg]
      simp [hgp]
  · intro elf file s hok
    obtain ⟨sec, buf, i, ent, buf2, g, h1, h2, h3, h4, h5, h6, hc, hnx, hr, -⟩ :=
      get_options_32_ok_elim elf file s hok
    refine ⟨sec, buf, h1, h2, fun hn => ?_, fun g' hg => ⟨fun hgp => ?_, fun hgp => ?_⟩⟩
    · rw [hr, hn]
    · rw [hr, hg]
      simp [hgp]
    · rw [hr, hg]
      simp [hgp]

/-- C4: whenever mitigation inference succeeds and the first `PT_GNU_STACK`
program header (in file order) is `g`, the reported NX is true exactly when
bit 0 (the execute bit) of `g.p_flags` is 0; and when no `PT_GNU_STACK`
entry exists, inference never returns a result. -/
theorem claim_C4 :
    (∀ (elf : ELF64) (file : List Nat) (s : SecurityOptions) (g : Elf64Phdr),
       get_options_64 elf file = .ok s →
       elf.pht.find? (fun x => x.p_type == PType.PtGnuStack) = some g →
       (s.nx = true ↔ g.p_flags % 2 = 0)) ∧
    (∀ (elf : ELF64) (file : List Nat),
       elf.pht.find? (fun x => x.p_type == PType.PtGnuStack) = none →
       ∀ s, get_options_64 elf file ≠ .ok s) ∧
    (∀ (elf : ELF32) (file : List Nat) (s : SecurityOptions) (g : Elf32Phdr),
       get_options_32 elf file = .ok s →
       elf.pht.find? (fun x => x.p_type == PType.PtGnuStack) = some g →
       (s.nx = true ↔ g.p_flags % 2 = 0)) ∧
    (∀ (elf : ELF32) (file : List Nat),
       elf.pht.find? (fun x => x.p_type == PType.PtGnuStack) = none →
       ∀ s, get_options_32 elf file ≠ .ok s) := by
  refine ⟨?_, ?_, ?_, ?_⟩
  · intro elf file s g hok hg
    obtain ⟨sec, buf, i, ent, buf2, g', h1, h2, h3, h4, h5, h6, hc, hnx, -⟩ :=
      get_options_64_ok_elim elf file s hok
    rw [hg] at h6
    cases h6
    rw [hnx]
    simp [Elf64Phdr.has_x, Nat.shiftRight_zero, Nat.and_one_is_mod]
  · intro elf file hn s hok
    obtain ⟨sec, buf, i, ent, buf2, g', h1, h2, h3, h4, h5, h6, -⟩ :=
      get_options_64_ok_elim elf file s hok
    rw [hn] at h6
    exact absurd h6 (by simp)
  · intro elf file s g hok hg
    obtain ⟨sec, buf, i, ent, buf2, g', h1, h2, h3, h4, h5, h6, hc, hnx, -⟩ :=
      get_options_32_ok_elim elf file s hok
    rw [hg] at h6
    cases h6
    rw [hnx]
    simp [Elf32Phdr.has_x, Nat.shiftRight_zero, Nat.and_one_is_mod]
  · intro elf file hn s hok
    obtain ⟨sec, buf, i, ent, buf2, g', h1, h2, h3, h4, h5, h6, -⟩ :=
      get_options_32_ok_elim elf file s hok
    rw [hn] at h6
    exact absurd h6 (by simp)

/-- C5: whenever mitigation inference succeeds, PIE is determined by the
object type alone — `EtDyn` gives true and `EtExec` gives false; and for any
other object type (`EtNone`, `EtRel`, `EtCore`) inference never returns a
result (the code hits `unimplemented!()`). -/
theorem claim_C5 :
    (∀ (elf : ELF64) (file : List Nat) (s : SecurityOptions),
       get_options_64 elf file = .ok s →
       (elf.header.e_type = EType.EtDyn → s.pie = true) ∧
       (elf.header.e_type = EType.EtExec → s.pie = false)) ∧
    (∀ (elf : ELF64) (file : List Nat),
       elf.header.e_type ≠ EType.EtDyn → elf.header.e_type ≠ EType.EtExec →
       ∀ s, get_options_64 elf file ≠ .ok s) ∧
    (∀ (elf : ELF32) (file : List Nat) (s : SecurityOptions),
       get_options_32 elf file = .ok s →
       (elf.header.e_type = EType.EtDyn → s.pie = true) ∧
       (elf.header.e_type = EType.EtExec → s.pie = false)) ∧
    (∀ (elf : ELF32) (file : List Nat),
       elf.header.e_type ≠ EType.EtDyn → elf.header.e_type ≠ EType.EtExec →
       ∀ s, get_options_32 elf file ≠ .ok s) := by
  refine ⟨?_, ?_, ?_, ?_⟩
  · intro elf file s hok
    obtain ⟨-, -, -, -, -, -, -, -, -, -, -, -, -, -, -, hp⟩ :=
      get_options_64_ok_elim elf file s hok
    rcases hp with ⟨hty, hpie⟩ | ⟨hty, hpie⟩ <;>
      exact ⟨fun h => by simp_all, fun h => by simp_all⟩
  · intro elf file h1 h2 s hok
    obtain ⟨-, -, -, -, -, -, -, -, -, -, -, -, -, -, -, hp⟩ :=
      get_options_64_ok_elim elf file s hok
    rcases hp with ⟨hty, -⟩ | ⟨hty, -⟩
    · exact h1 hty
    · exact h2 hty
  · intro elf file s hok
    obtain ⟨-, -, -, -, -, -, -, -, -, -, -, -, -, -, -, hp⟩ :=
      get_options_32_ok_elim elf file s hok
    rcases hp with ⟨hty, hpie⟩ | ⟨hty, hpie⟩ <;>
      exact ⟨fun h => by simp_all, fun h => by simp_all⟩
  · intro elf file h1 h2 s hok
    obtain ⟨-, -, -, -, -, -, -, -, -, -, -, -, -, -, -, hp⟩ :=
      get_options_32_ok_elim elf file s hok
    rcases hp with ⟨hty, -⟩ | ⟨hty, -⟩
    · exact h1 hty
    · exact h2 hty

/-- A 7-byte file whose whole content is the string `".strtab"`. -/
def exFileA : List Nat := dotStrtabBytes

/-- A section covering all of `exFileA`, named at string-table offset 0. -/
def exShdr64A : Elf64Shdr := ⟨0, .ShtSTRTAB, 0, 0, 0, 7, 0, 0, 0, 0⟩

/-- A `PT_GNU_STACK` program header with empty permission flags. -/
def exPhdr64A : Elf64Phdr := ⟨.PtGnuStack, 0, 0, 0, 0, 0, 0, 0⟩

/-- 64-bit header for the mitigation-inference examples. -/
def exEhdr64A : Elf64Ehdr :=
  ⟨⟨elfMagic, .ElfClass64, .ElfData2Lsb, .EvCurrent, .ElfOsabiNONE, 0⟩,
   .EtExec, .Emx86_64, .EvCurrent, 0, 0, 0, 0, 0, 0, 1, 0, 1, 0⟩

/-- 64-bit decoded ELF on which `get_options_64` succeeds. -/
def exElf64A : ELF64 := ⟨exEhdr64A, [exPhdr64A], [exShdr64A], defaultSecurityOptions⟩

/-- Like `exElf64A` but of shared-object type (`EtDyn`). -/
def exElf64B : ELF64 :=
  ⟨⟨⟨elfMagic, .ElfClass64, .ElfData2Lsb, .EvCurrent, .ElfOsabiNONE, 0⟩,
    .EtDyn, .Emx86_64, .EvCurrent, 0, 0, 0, 0, 0, 0, 1, 0, 1, 0⟩,
   [exPhdr64A], [exShdr64A], defaultSecurityOptions⟩

/-- Like `exElf64A` but of relocatable type (`EtRel`, unhandled by PIE). -/
def exElf64C : ELF64 :=
  ⟨⟨⟨elfMagic, .ElfClass64, .ElfData2Lsb, .EvCurrent, .ElfOsabiNONE, 0⟩,
    .EtRel, .Emx86_64, .EvCurrent, 0, 0, 0, 0, 0, 0, 1, 0, 1, 0⟩,
   [exPhdr64A], [exShdr64A], defaultSecurityOptions⟩

/-- 32-bit analogue of `exShdr64A`. -/
def exShdr32A : Elf32Shdr := ⟨0, .ShtSTRTAB, 0, 0, 0, 7, 0, 0, 0, 0⟩

/-- 32-bit analogue of `exPhdr64A`. -/
def exPhdr32A : Elf32Phdr := ⟨.PtGnuStack, 0, 0, 0, 0, 0, 0, 0⟩

/-- 32-bit header for the mitigation-inference examples. -/
def exEhdr32A : Elf32Ehdr :=
  ⟨⟨elfMagic, .ElfClass32, .ElfData2Lsb, .EvCurrent, .ElfOsabiNONE, 0⟩,
   .EtExec, .Em386, .EvCurrent, 0, 0, 0, 0, 0, 0, 1, 0, 1, 0⟩

/-- 32-bit decoded ELF on which `get_options_32` succeeds. -/
def exElf32A : ELF32 := ⟨exEhdr32A, [exPhdr32A], [exShdr32A], defaultSecurityOptions⟩

/-- Like `exElf32A` but of shared-object type (`EtDyn`). -/
def exElf32B : ELF32 :=
  ⟨⟨⟨elfMagic, .ElfClass32, .ElfData2Lsb, .EvCurrent, .ElfOsabiNONE, 0⟩,
    .EtDyn, .Em386, .EvCurrent, 0, 0, 0, 0, 0, 0, 1, 0, 1, 0⟩,
   [exPhdr32A], [exShdr32A], defaultSecurityOptions⟩

/-- Like `exElf32A` but of relocatable type (`EtRel`, unhandled by PIE). -/
def exElf32C : ELF32 :=
  ⟨⟨⟨elfMagic, .ElfClass32, .ElfData2Lsb, .EvCurrent, .ElfOsabiNONE, 0⟩,
    .EtRel, .Em386, .EvCurrent, 0, 0, 0, 0, 0, 0, 1, 0, 1, 0⟩,
   [exPhdr32A], [exShdr32A], defaultSecurityOptions⟩

/-- The successful result of mitigation inference on the examples. -/
def exSecA : SecurityOptions := ⟨false, true, RelRo.NoRelRo, false⟩

/-- Witness for C2 on the concrete examples. -/
theorem claim_C2_witness :
    (∃ sec buf i ent buf2,
       exElf64A.sht.get? exElf64A.header.e_shstrndx = some sec ∧
       readRegion exFileA sec.sh_offset sec.sh_size = some buf ∧
       findSub dotStrtabBytes buf = some i ∧
       exElf64A.sht.find? (fun x => x.sh_name == i % 4294967296) = some ent ∧
       readRegion exFileA ent.sh_offset ent.sh_size = some buf2 ∧
       (exSecA.canary = true ↔ hasSub buf2 stackChkFailBytes = true)) ∧
    (∃ sec buf i ent buf2,
       exElf32A.sht.get? exElf32A.header.e_shstrndx = some sec ∧
       readRegion exFileA sec.sh_offset sec.sh_size = some buf ∧
       findSub dotStrtabBytes buf = some i ∧
       exElf32A.sht.find? (fun x => x.sh_name == i % 4294967296) = some ent ∧
       readRegion exFileA ent.sh_offset ent.sh_size = some buf2 ∧
       (exSecA.canary = true ↔ hasSub buf2 stackChkFailBytes = true)) :=
  ⟨claim_C2.1 exElf64A exFileA exSecA (by decide),
   claim_C2.2 exElf32A exFileA exSecA (by decide)⟩

/-- Witness for C3 on the concrete examples. -/
theorem claim_C3_witness :
    (∃ sec buf,
       exElf64A.sht.get? exElf64A.header.e_shstrndx = some sec ∧
       readRegion exFileA sec.sh_offset sec.sh_size = some buf ∧
       (exElf64A.pht.find? (fun x => x.p_type == PType.PtGnuRelro) = none →
          exSecA.relro = RelRo.NoRelRo) ∧
       (∀ g, exElf64A.pht.find? (fun x => x.p_type == PType.PtGnuRelro) = some g →
          (hasSub buf gotPltBytes = true → exSecA.relro = RelRo.PartialRelRo) ∧
          (hasSub buf gotPltBytes = false → exSecA.relro = RelRo.FullRelRo))) ∧
    (∃ sec buf,
       exElf32A.sht.get? exElf32A.header.e_shstrndx = some sec ∧
       readRegion exFileA sec.sh_offset sec.sh_size = some buf ∧
       (exElf32A.pht.find? (fun x => x.p_type == PType.PtGnuRelro) = none →
          exSecA.relro = RelRo.NoRelRo) ∧
       (∀ g, exElf32A.pht.find? (fun x => x.p_type == PType.PtGnuRelro) = some g →
          (hasSub buf gotPltBytes = true → exSecA.relro = RelRo.PartialRelRo) ∧
          (hasSub buf gotPltBytes = false → exSecA.relro = RelRo.FullRelRo))) :=
  ⟨claim_C3.1 exElf64A exFileA exSecA (by decide),
   claim_C3.2 exElf32A exFileA exSecA (by decide)⟩

/-- Witness for C4 on the concrete examples: the `PT_GNU_STACK` entry has
execute bit 0 and NX is reported true; ELFs without a `PT_GNU_STACK` entry
never produce a result. -/
theorem claim_C4_witness :
    (exSecA.nx = true ↔ exPhdr64A.p_flags % 2 = 0) ∧
    get_options_64 exEmptyElf64 [] ≠ .ok exSecA ∧
    (exSecA.nx = true ↔ exPhdr32A.p_flags % 2 = 0) ∧
    get_options_32 exEmptyElf32 [] ≠ .ok exSecA :=
  ⟨claim_C4.1 exElf64A exFileA exSecA exPhdr64A (by decide) (by decide),
   claim_C4.2.1 exEmptyElf64 [] (by decide) exSecA,
   claim_C4.2.2.1 exElf32A exFileA exSecA exPhdr32A (by decide) (by decide),
   claim_C4.2.2.2 exEmptyElf32 [] (by decide) exSecA⟩

/-- Witness for C5 on the concrete examples: an `EtExec` file reports
PIE = false, an `EtDyn` file reports PIE = true, and an `EtRel` file never
produces a result. -/
theorem claim_C5_witness :
    exSecA.pie = false ∧
    SecurityOptions.pie ⟨false, true, RelRo.NoRelRo, true⟩ = true ∧
    get_options_64 exElf64C exFileA ≠ .ok exSecA ∧
    SecurityOptions.pie ⟨false, true, RelRo.NoRelRo, true⟩ = true ∧
    get_options_32 exElf32C exFileA ≠ .ok exSecA :=
  ⟨(claim_C5.1 exElf64A exFileA exSecA (by decide)).2 (by decide),
   (claim_C5.1 exElf64B exFileA ⟨false, true, RelRo.NoRelRo, true⟩ (by decide)).1 (by decide),
   claim_C5.2.1 exElf64C exFileA (by decide) (by decide) exSecA,
   (claim_C5.2.2.1 exElf32B exFileA ⟨false, true, RelRo.NoRelRo, true⟩ (by decide)).1 (by decide),
   claim_C5.2.2.2 exElf32C exFileA (by decide) (by decide) exSecA⟩

theorem eiClassFromU8_eq_none (b : Nat) (h0 : b ≠ 0) (h1 : b ≠ 1) (h2 : b ≠ 2) :
    eiClassFromU8 b = none := by
  obtain ⟨k, rfl⟩ : ∃ k, b = k + 3 := ⟨b - 3, by omega⟩
  rfl

theorem getD_take_lt (l : List Nat) (i n d : Nat) (h : i < n) :
    (l.take n).getD i d = l.getD i d := by
  simp [List.getD, List.getElem?_take_of_lt h]

theorem elf32_from_io_badclass (file : List Nat)
    (h0 : file.getD 4 0 ≠ 0) (h1 : file.getD 4 0 ≠ 1) (h2 : file.getD 4 0 ≠ 2) :
    Elf32Ehdr.from_io file = .panic := by
  by_cases h16 : 16 ≤ file.length
  · unfold Elf32Ehdr.from_io
    simp only [readExactN]
    rw [if_pos h16]
    have hc : eiClassFromU8 ((file.take 16).getD 4 0) = none := by
      rw [getD_take_lt file 4 16 0 (by norm_num)]
      exact eiClassFromU8_eq_none _ h0 h1 h2
    split
    all_goals try rfl
    rename_i buf rest heq
    simp only [Option.some.injEq, Prod.mk.injEq] at heq
    obtain ⟨hb, -⟩ := heq
    subst hb
    by_cases hmag : (file.take 16).take 4 = elfMagic
    · rw [if_pos hmag, hc]
    · rw [if_neg hmag]
  · unfold Elf32Ehdr.from_io
    simp only [readExactN]
    rw [if_neg h16]

/-- C1 (amended): the entry point runs the 64-bit decoder exactly when the
identification byte at offset 4 equals 2; for EVERY other value of that byte
it runs the 32-bit decoder, which rejects class bytes outside {0, 1, 2} but
accepts class byte 0, so only class bytes 3–255 are guaranteed to fail — a
file whose class byte is 0 is decoded via the 32-bit path, not rejected. -/
theorem claim_C1 (file : List Nat) :
    (∀ e, mainDispatch file = .decoded64 e ↔
       (file.getD 4 0 = 2 ∧ ELF64.load file = .ok e)) ∧
    (∀ e, mainDispatch file = .decoded32 e ↔
       (file.getD 4 0 ≠ 2 ∧ ELF32.load file = .ok e)) ∧
    (file.getD 4 0 ≠ 0 → file.getD 4 0 ≠ 1 → file.getD 4 0 ≠ 2 →
       mainDispatch file = .failed) := by
  refine ⟨?_, ?_, ?_⟩
  · intro e
    unfold mainDispatch
    by_cases hb : file.getD 4 0 = 2
    · rw [if_pos hb]
      cases hl : ELF64.load file <;> simp_all
    · rw [if_neg hb]
      cases hl : ELF32.load file <;> simp_all
  · intro e
    unfold mainDispatch
    by_cases hb : file.getD 4 0 = 2
    · rw [if_pos hb]
      cases hl : ELF64.load file <;> simp_all
    · rw [if_neg hb]
      cases hl : ELF32.load file <;> simp_all
  · intro h0 h1 h2
    unfold mainDispatch
    rw [if_neg h2]
    have hio : Elf32Ehdr.from_io file = .panic := elf32_from_io_badclass file h0 h1 h2
    simp [ELF32.load, hio]

/-- A 52-byte file with a correct magic, class byte 0 and every other byte
0: bytewise it is an all-zero 32-bit header. -/
def zeroClassFile : List Nat := elfMagic ++ List.replicate 48 0

/-- The value that `ELF32::load` produces on `zeroClassFile`. -/
def zeroClassElf32 : ELF32 :=
  ⟨⟨⟨elfMagic, .ElfClassNone, .ElfDataNone, .EvNone, .ElfOsabiNONE, 0⟩,
    .EtNone, .EmNone, .EvNone, 0, 0, 0, 0, 0, 0, 0, 0, 0, 0⟩,
   [], [], defaultSecurityOptions⟩

/-- Counterexample to C1 as stated: a file whose class byte is 0 (neither 1
nor 2) is nevertheless decoded successfully, via the 32-bit decoder, rather
than failing. -/
theorem claim_C1_counterexample :
    zeroClassFile.getD 4 0 = 0 ∧
    mainDispatch zeroClassFile = .decoded32 zeroClassElf32 := by
  decide

/-- Witness for C1 (amended) at a concrete file with class byte 9: the
dispatch fails. -/
theorem claim_C1_witness :
    mainDispatch [0x7f, 0x45, 0x4c, 0x46, 9] = .failed :=
  (claim_C1 [0x7f, 0x45, 0x4c, 0x46, 9]).2.2 (by decide) (by decide) (by decide)
